import Mathlib

/-!
Verification development for the webhook-middleware ingestion pipeline.

This file shallowly embeds the normalization / merge-dedup core of the
repository (src/utils/browseai.utils.ts, src/utils/olemiss.ts,
src/services/browseAI/browseAI.service.ts, src/utils/firestore.ts) into
Lean 4 and settles the frozen claims about it.

Modeling conventions:
  - JavaScript values are the inductive type Value below: null, booleans,
    numbers (integers suffice for this code base), strings, arrays, and
    objects as insertion-ordered association lists.  Firestore Timestamps
    are an opaque constructor vts (they matter to none of the claims; the
    payloads in scope are plain JSON).
  - undefined is represented by absence: a field lookup returning none is
    the JS undefined.  JSON payloads cannot contain undefined values.
  - Fallible JS evaluation (TypeError on property access of null, on the
    in operator applied to a primitive, ...) is Except JsErr.
  - Date.now() and new Date().getFullYear() are explicit parameters
    (now, year).
  - JS regular expressions are embedded as hand-written leftmost-match
    scanners with explicit greedy / lazy backtracking, one per source
    regex, built from the small combinator set in this file.
-/

namespace Webhook

/-- JS runtime error raised during processing (only TypeError is reachable
in the embedded code paths).  outOfFuel is an embedding artifact: the
recursive cleaner below carries an explicit recursion budget so that it
stays kernel-computable; a run that exhausts the budget answers outOfFuel
instead, and every theorem about successful runs is conditioned on an ok
result, which a budget exhaustion never produces. -/
inductive JsErr where
  | typeError (msg : String)
  | outOfFuel
deriving DecidableEq, Repr

/-- Embedded JavaScript/JSON value.  Objects are insertion-ordered
association lists, as JS string-keyed objects are. -/
inductive Value where
  | vnull
  | vbool (b : Bool)
  | vnum (n : Int)
  | vstr (s : String)
  | varr (elems : List Value)
  | vobj (fields : List (String × Value))
  | vts (t : String)
deriving Repr

/-- JS truthiness. -/
def truthy : Value → Bool
  | .vnull => false
  | .vbool b => b
  | .vnum n => n != 0
  | .vstr s => s != ""
  | .varr _ => true
  | .vobj _ => true
  | .vts _ => true

/-- First binding of a key in an association list (JS objects cannot hold
duplicate keys, so first occurrence is exact). -/
def lookupField : List (String × Value) → String → Option Value
  | [], _ => none
  | (k, v) :: rest, key => if k = key then some v else lookupField rest key

/-- Property read item[key]; undefined (none) for non-objects, matching JS
reads on primitives/arrays for the key names used by this code base. -/
def getField : Value → String → Option Value
  | .vobj fs, key => lookupField fs key
  | _, _ => none

/-- Truthiness of a possibly-undefined value. -/
def optTruthy (o : Option Value) : Bool :=
  match o with
  | some v => truthy v
  | none => false

/-- JS property assignment into an association list: update in place if the
key exists, append otherwise (JS keeps the original insertion position on
update). -/
def setKey : List (String × Value) → String → Value → List (String × Value)
  | [], key, v => [(key, v)]
  | (k, w) :: rest, key, v =>
      if k = key then (key, v) :: rest else (k, w) :: setKey rest key v

/-- Property assignment obj[key] = v; silently no-op on non-objects (such
writes are unreachable in the claim-relevant paths). -/
def setField : Value → String → Value → Value
  | .vobj fs, key, v => .vobj (setKey fs key v)
  | other, _, _ => other

/-- Does the object have the key (the JS in operator on an object). -/
def hasField (v : Value) (key : String) : Bool :=
  (getField v key).isSome

/-- Optional chaining a?.b?.[c]. -/
def getPath2 (v : Value) (k1 k2 : String) : Option Value :=
  match getField v k1 with
  | some w => getField w k2
  | none => none

/-- Object.entries: fields of an object in insertion order; index/character
keys for arrays and strings; empty for other primitives and the opaque
Timestamp model.  Callers that can receive null use objEntriesOrThrow. -/
def objEntries : Value → List (String × Value)
  | .vobj fs => fs
  | .varr xs => (List.range xs.length).zip xs |>.map (fun p => (toString p.1, p.2))
  | .vstr s => (List.range s.data.length).zip s.data
      |>.map (fun p => (toString p.1, Value.vstr (String.mk [p.2])))
  | _ => []

/-- Object.keys / Object.entries with the JS TypeError on null (undefined
cannot occur: absence models it). -/
def objEntriesOrThrow (v : Value) : Except JsErr (List (String × Value)) :=
  match v with
  | .vnull => .error (.typeError "Cannot convert undefined or null to object")
  | _ => .ok (objEntries v)

/-- typeof v === "object" (true for null, arrays, plain objects and the
Timestamp model). -/
def isObjType : Value → Bool
  | .vnull => true
  | .varr _ => true
  | .vobj _ => true
  | .vts _ => true
  | _ => false

/-- Array.prototype.join with a separator. -/
def joinSep (sep : String) : List String → String
  | [] => ""
  | [x] => x
  | x :: rest => x ++ sep ++ joinSep sep rest

mutual
/-- JS String(v) coercion, as used in template literals.  Arrays join their
elements with commas, null elements rendering as the empty string. -/
def jsToString : Value → String
  | .vnull => "null"
  | .vbool b => if b then "true" else "false"
  | .vnum n => toString n
  | .vstr s => s
  | .varr xs => joinSep "," (jsArrElems xs)
  | .vobj _ => "[object Object]"
  | .vts t => "Timestamp(" ++ t ++ ")"

/-- Elements of an array under String(): null renders empty. -/
def jsArrElems : List Value → List String
  | [] => []
  | .vnull :: rest => "" :: jsArrElems rest
  | v :: rest => jsToString v :: jsArrElems rest
end

/-- String coercion of a possibly-undefined value (template-literal
rendering of undefined). -/
def jsToStringOpt (o : Option Value) : String :=
  match o with
  | some v => jsToString v
  | none => "undefined"

/-! ## String helpers shared by the embedded code

The character-level primitives below replace the corresponding core String
functions, whose byte-position recursion the kernel cannot evaluate; each
is the plain character-list version of the JS operation. -/

/-- String.prototype.toLowerCase (ASCII, which is all this code base
compares). -/
def strToLower (s : String) : String :=
  String.mk (s.data.map Char.toLower)

/-- String.prototype.toUpperCase (ASCII). -/
def strToUpper (s : String) : String :=
  String.mk (s.data.map Char.toUpper)

/-- Substring containment, the JS String.prototype.includes. -/
def containsSub : List Char → List Char → Bool
  | _, [] => true
  | [], _ :: _ => false
  | h :: t, n => (List.isPrefixOf n (h :: t)) || containsSub t n

/-- s.includes(sub). -/
def strContains (s sub : String) : Bool :=
  containsSub s.data sub.data

/-- The whitespace class matched by the JS regex escape for spaces (ASCII
subset, which is all the processed scrapes contain). -/
def jsSpace (c : Char) : Bool :=
  c = ' ' || c = '\t' || c = '\n' || c = '\r'

/-- Collapse every run of whitespace to a single replacement character: the
global regex replacement of one-or-more spaces used throughout the source
(with a space or a hyphen as the replacement). -/
def collapseRuns (repl : Char) : Bool → List Char → List Char
  | _, [] => []
  | prev, c :: t =>
      if jsSpace c then
        if prev then collapseRuns repl true t
        else repl :: collapseRuns repl true t
      else c :: collapseRuns repl false t

/-- s.replace(whitespace-run regex, " "). -/
def collapseWs (s : String) : String :=
  String.mk (collapseRuns ' ' false s.data)

/-- String.prototype.trim (over the JS whitespace class). -/
def jsTrim (s : String) : String :=
  String.mk (((s.data.dropWhile jsSpace).reverse.dropWhile jsSpace).reverse)

/-- String.prototype.split with a one-character separator: always yields at
least one piece, empty pieces included. -/
def splitChar (sep : Char) : List Char → List (List Char)
  | [] => [[]]
  | c :: t =>
      match splitChar sep t with
      | [] => [[c]]
      | h :: rest => if c = sep then [] :: h :: rest else (c :: h) :: rest

/-- s.split(sep) for a one-character separator, as strings. -/
def strSplitChar (s : String) (sep : Char) : List String :=
  (splitChar sep s.data).map String.mk

/-- String.prototype.padStart(2, "0"). -/
def padStart2 (s : String) : String :=
  if s.length ≥ 2 then s else
  if s.length = 1 then "0" ++ s else "00" ++ s

/-- Anchored test of the strict YYYY-MM-DD shape (4 digits, dash, 2 digits,
dash, 2 digits, nothing else). -/
def isYYYYMMDD (s : String) : Bool :=
  match s.data with
  | [y1, y2, y3, y4, h1, m1, m2, h2, d1, d2] =>
      y1.isDigit && y2.isDigit && y3.isDigit && y4.isDigit &&
      h1 = '-' && m1.isDigit && m2.isDigit && h2 = '-' && d1.isDigit && d2.isDigit
  | _ => false

/-- Lexicographic char-list comparison backing the string order used in the
date-ordering claims. -/
def lexLe : List Char → List Char → Bool
  | [], _ => true
  | _ :: _, [] => false
  | a :: s, b :: t =>
      if a = b then lexLe s t
      else decide (a < b)

/-- startDate <= endDate as string comparison. -/
def strLe (s t : String) : Bool :=
  lexLe s.data t.data

/-! ## Leftmost-match scanners for the embedded JS regular expressions

A matcher is a continuation-passing function on the remaining input; each
source regex becomes one composition of the combinators below.  Greedy and
lazy repetition carry the exact JS backtracking behaviour: greedy tries the
longest expansion first and shrinks on continuation failure, lazy tries the
shortest first and grows. -/

/-- A matcher continuation: given the remaining input, produce a result. -/
abbrev Cont (α : Type) := List Char → Option α

/-- Match a literal string, then continue. -/
def litThen (pat : String) (k : Cont α) : Cont α := fun l =>
  if List.isPrefixOf pat.data l then k (l.drop pat.data.length) else none

/-- Match one character satisfying a class, then continue. -/
def charIfThen (p : Char → Bool) (k : Cont α) : Cont α := fun l =>
  match l with
  | c :: t => if p c then k t else none
  | [] => none

/-- Match one literal character, then continue. -/
def chThen (c : Char) (k : Cont α) : Cont α :=
  charIfThen (fun d => d == c) k

/-- Greedy star over a character class (longest first, backtracking). -/
def manyGreedy (ok : Char → Bool) (k : Cont α) : List Char → Option α
  | [] => k []
  | c :: t =>
      (if ok c then manyGreedy ok k t else none).orElse (fun _ => k (c :: t))

/-- Greedy plus over a character class. -/
def many1Greedy (ok : Char → Bool) (k : Cont α) : Cont α := fun l =>
  match l with
  | c :: t => if ok c then manyGreedy ok k t else none
  | [] => none

/-- Greedy plus with capture of the consumed characters (accumulator is
reversed). -/
def manyGreedyCapAux (ok : Char → Bool) (k : List Char → Cont α)
    (acc : List Char) : List Char → Option α
  | [] => k acc []
  | c :: t =>
      (if ok c then manyGreedyCapAux ok k (c :: acc) t else none).orElse
        (fun _ => k acc (c :: t))

/-- Capture of one-or-more class characters, greedy. -/
def many1GreedyCap (ok : Char → Bool) (k : String → Cont α) : Cont α := fun l =>
  match l with
  | c :: t =>
      if ok c then manyGreedyCapAux ok (fun acc => k (String.mk acc.reverse)) [c] t
      else none
  | [] => none

/-- Lazy star with capture (shortest first, growing on failure). -/
def manyLazyCapAux (ok : Char → Bool) (k : List Char → Cont α)
    (acc : List Char) : List Char → Option α
  | [] => k acc []
  | c :: t =>
      (k acc (c :: t)).orElse
        (fun _ => if ok c then manyLazyCapAux ok (k) (c :: acc) t else none)

/-- Lazy star over a class, capturing the consumed characters. -/
def manyLazyCap (ok : Char → Bool) (k : String → Cont α) : Cont α :=
  manyLazyCapAux ok (fun acc => k (String.mk acc.reverse)) []

/-- Lazy star over a class without capture. -/
def manyLazy (ok : Char → Bool) (k : Cont α) : Cont α :=
  manyLazyCapAux ok (fun _ => k) []

/-- An optional group: try with the body first (JS greedy option), then
without. -/
def optThen (body : Cont α → Cont α) (k : Cont α) : Cont α := fun l =>
  (body k l).orElse (fun _ => k l)

/-- Zero-or-more whitespace. -/
def spaces0 (k : Cont α) : Cont α := manyGreedy jsSpace k

/-- One-or-more whitespace. -/
def spaces1 (k : Cont α) : Cont α := many1Greedy jsSpace k

/-- One or two digits, greedy with backtracking, captured. -/
def digits12 (k : String → Cont α) : Cont α := fun l =>
  match l with
  | d1 :: d2 :: t =>
      if d1.isDigit then
        if d2.isDigit then
          (k (String.mk [d1, d2]) t).orElse (fun _ => k (String.mk [d1]) (d2 :: t))
        else k (String.mk [d1]) (d2 :: t)
      else none
  | [d1] => if d1.isDigit then k (String.mk [d1]) [] else none
  | [] => none

/-- Exactly four digits, captured. -/
def digits4 (k : String → Cont α) : Cont α := fun l =>
  match l with
  | a :: b :: c :: d :: t =>
      if a.isDigit && b.isDigit && c.isDigit && d.isDigit then
        k (String.mk [a, b, c, d]) t
      else none
  | _ => none

/-- Capitalized three-letter month names, as written in the source regexes. -/
def monthNames3 : List String :=
  ["Jan", "Feb", "Mar", "Apr", "May", "Jun", "Jul", "Aug", "Sep", "Oct", "Nov", "Dec"]

/-- Case-insensitive month alternation (regexes carrying the i flag),
capturing the matched text. -/
def monthAtCI (k : String → Cont α) : Cont α := fun l =>
  match l with
  | a :: b :: c :: t =>
      let m := String.mk [a, b, c]
      if monthNames3.any (fun n => strToLower n == strToLower m) then k m t else none
  | _ => none

/-- Case-sensitive month alternation (regexes without the i flag). -/
def monthAtCS (k : String → Cont α) : Cont α := fun l =>
  match l with
  | a :: b :: c :: t =>
      let m := String.mk [a, b, c]
      if monthNames3.contains m then k m t else none
  | _ => none

/-- Uppercase month alternation of the generic date parser. -/
def monthAtU (k : String → Cont α) : Cont α := fun l =>
  match l with
  | a :: b :: c :: t =>
      let m := String.mk [a, b, c]
      if (monthNames3.map strToUpper).contains m then k m t else none
  | _ => none

/-- Uppercase day-of-week alternation (no capture used by the source). -/
def dowAtU (k : Cont α) : Cont α := fun l =>
  match l with
  | a :: b :: c :: t =>
      if (["MON", "TUE", "WED", "THU", "FRI", "SAT", "SUN"] : List String).contains
          (String.mk [a, b, c]) then k t
      else none
  | _ => none

/-- Leftmost match: try the anchored matcher at every successive start
position, as the JS engine does. -/
def findFirst (p : Cont α) : List Char → Option α
  | [] => p []
  | c :: t => (p (c :: t)).orElse (fun _ => findFirst p t)

/-! ## parseDateString (src/utils/browseai.utils.ts, lines 406-452)

Parses strings like "MAY SAT 24" into YYYY-MM-DD with the year hardcoded
to 2025 (the source comment reads: use current year (2025) as specified). -/

/-- The month-and-day scanner of parseDateString: month abbreviation,
optionally a day-of-week, then one or two digits. -/
def mdAt : Cont (String × String) :=
  monthAtU fun m =>
    optThen (fun k => spaces1 (dowAtU k)) <|
    spaces0 <| digits12 fun d => fun _ => some (m, d)

/-- Month-abbreviation table of parseDateString (uppercase keys). -/
def monthMapU : List (String × String) :=
  [("JAN", "01"), ("FEB", "02"), ("MAR", "03"), ("APR", "04"), ("MAY", "05"),
   ("JUN", "06"), ("JUL", "07"), ("AUG", "08"), ("SEP", "09"), ("OCT", "10"),
   ("NOV", "11"), ("DEC", "12")]

/-- parseDateString: generic month-name date normalization with the year
hardcoded to 2025; returns the original string when no month/day pattern
matches. -/
def parseDateString (dateString : String) : String :=
  if dateString = "" then "" else
  let upperDateStr := jsTrim (strToUpper dateString)
  match findFirst mdAt upperDateStr.data with
  | none => dateString
  | some (monthStr, dayRaw) =>
      let day := padStart2 dayRaw
      match monthMapU.lookup monthStr with
      | none => dateString
      | some month => "2025" ++ "-" ++ month ++ "-" ++ day

/-! ## parseEventDate (src/utils/olemiss.ts, lines 180-233)

The OleMiss event-date parser: date ranges, dated-with-year forms, and
simple month-day forms, relative to the current year passed explicitly. -/

/-- Month-name table of the OleMiss utilities (lowercase keys, short and
long names). -/
def MONTH_MAP : List (String × String) :=
  [("jan", "01"), ("january", "01"), ("feb", "02"), ("february", "02"),
   ("mar", "03"), ("march", "03"), ("apr", "04"), ("april", "04"),
   ("may", "05"), ("jun", "06"), ("june", "06"), ("jul", "07"),
   ("july", "07"), ("aug", "08"), ("august", "08"), ("sep", "09"),
   ("september", "09"), ("oct", "10"), ("october", "10"), ("nov", "11"),
   ("november", "11"), ("dec", "12"), ("december", "12")]

/-- getMonthNumber: month-name lookup defaulting to January. -/
def getMonthNumber (monthName : String) : String :=
  (MONTH_MAP.lookup (strToLower monthName)).getD "01"

/-- The formatDate helper of parseEventDate. -/
def formatDate (currentYear : Nat) (month day : String) (year : Option String) : String :=
  year.getD (toString currentYear) ++ "-" ++ getMonthNumber month ++ "-" ++ padStart2 day

/-- An optional parenthesized annotation with leading spaces, as appears
after each day in a range. -/
def parenGroup (k : Cont α) : Cont α :=
  spaces0 <| chThen '(' <| manyGreedy (fun c => c != ')') <| chThen ')' k

/-- The date-range scanner: month day (dow)? - month day (dow)?. -/
def rangeAt : Cont (String × String × String × String) :=
  monthAtCI fun m1 => spaces1 <| digits12 fun d1 =>
    optThen parenGroup <| spaces0 <|
    charIfThen (fun c => c == '-' || c == '–') <| spaces0 <|
    monthAtCI fun m2 => spaces1 <| digits12 fun d2 =>
      optThen parenGroup <| fun _ => some (m1, d1, m2, d2)

/-- The optional "-dd" day suffix of the dated-with-year form. -/
def optEndDay (k : Option String → Cont α) : Cont α := fun l =>
  (chThen '-' (digits12 fun d2 => k (some d2)) l).orElse (fun _ => k none l)

/-- The dated-with-year scanner: month day(-day)?, year. -/
def yearAt : Cont (String × String × Option String × String) :=
  monthAtCI fun m => spaces1 <| digits12 fun d1 =>
    optEndDay fun od2 =>
      chThen ',' <| spaces0 <| digits4 fun y => fun _ => some (m, d1, od2, y)

/-- The optional html or plain parenthesized suffix of the html-format
scanner. -/
def htmlSuffix (k : Cont α) : Cont α := fun l =>
  (litThen "<span"
      (manyGreedy (fun c => c != '>') <| chThen '>' <| spaces0 <|
       chThen '(' <| manyGreedy (fun c => c != ')') <| chThen ')' <|
       spaces0 <| litThen "</span>" k) l).orElse
    (fun _ =>
      (chThen '(' <| manyGreedy (fun c => c != ')') <| chThen ')' k) l)

/-- The html-format scanner: month day followed by an optional annotated
suffix. -/
def htmlFmtAt : Cont (String × String) :=
  monthAtCI fun m => spaces1 <| digits12 fun d =>
    spaces0 <| optThen htmlSuffix <| fun _ => some (m, d)

/-- The simple-date scanner: month day. -/
def simpleAt : Cont (String × String) :=
  monthAtCI fun m => spaces1 <| digits12 fun d => fun _ => some (m, d)

/-- parseEventDate: resolve an event-date string to a start/end pair in
YYYY-MM-DD form, or none when no supported pattern matches. -/
def parseEventDate (currentYear : Nat) (eventDateStr : String) :
    Option (String × String) :=
  if eventDateStr = "" then none else
  let cleanedStr := jsTrim (collapseWs eventDateStr)
  match findFirst rangeAt cleanedStr.data with
  | some (m1, d1, m2, d2) =>
      some (formatDate currentYear m1 d1 none, formatDate currentYear m2 d2 none)
  | none =>
  match findFirst yearAt cleanedStr.data with
  | some (m, d1, od2, y) =>
      let startDate := formatDate currentYear m d1 (some y)
      match od2 with
      | some d2 => some (startDate, formatDate currentYear m d2 (some y))
      | none => some (startDate, startDate)
  | none =>
  match findFirst htmlFmtAt cleanedStr.data with
  | some (m, d) =>
      let date := formatDate currentYear m d none
      some (date, date)
  | none =>
  match findFirst simpleAt cleanedStr.data with
  | some (m, d) =>
      let date := formatDate currentYear m d none
      some (date, date)
  | none => none

/-! ## Dedup keys and deduplication (src/utils/browseai.utils.ts, 304-399) -/

/-- A value counting as a scalar (not typeof object) that is neither null
nor undefined, as in the fallback key-field filter. -/
def isScalarNonNull (o : Option Value) : Bool :=
  match o with
  | some (.vstr _) => true
  | some (.vnum _) => true
  | some (.vbool _) => true
  | _ => false

/-- createUniqueKeyForItem: derive the dedup key of an item.  Non-object
and null items stringify.  For objects: the preferred field set depends on
whether the item origin is the recognized source site; fields are kept when
their value is truthy; if no preferred field survives, all non-uid scalar
fields are used.  (The origin test stringifies a non-string originUrl where
JS would raise; such items cannot be produced by this pipeline.) -/
def createUniqueKeyForItem (item : Value) : String :=
  match item with
  | .vnull => jsToString item
  | .vbool _ => jsToString item
  | .vnum _ => jsToString item
  | .vstr _ => jsToString item
  | _ =>
      let fields := objEntries item
      let originUrlV := lookupField fields "originUrl"
      let isOleMiss :=
        optTruthy originUrlV && strContains (jsToStringOpt originUrlV) "olemisssports.com"
      let preferred : List String :=
        if isOleMiss then ["Title", "EventDate", "Location", "Sports"]
        else ["Title", "Location", "Date", "Time"]
      let keyFields := preferred.filter (fun f => optTruthy (lookupField fields f))
      let keyFields :=
        if keyFields.isEmpty then
          (fields.map (fun p => p.1)).filter
            (fun k => isScalarNonNull (lookupField fields k) && k != "uid")
        else keyFields
      joinSep "|"
        (keyFields.map (fun f => f ++ ":" ++ jsToStringOpt (lookupField fields f)))

/-- The null-Title filter predicate of deduplicateItems; raises the JS
TypeError when the element itself is null. -/
def titleFilterCheck (item : Value) : Except JsErr Bool :=
  match item with
  | .vnull => .error (.typeError "Cannot read properties of null (reading Title)")
  | _ =>
      match getField item "Title" with
      | some .vnull => .ok false
      | none => .ok false
      | some _ => .ok true

/-- Sequential filter keeping the items whose Title is neither null nor
undefined, propagating the first evaluation error. -/
def filterKeep : List Value → Except JsErr (List Value)
  | [] => .ok []
  | it :: rest => do
      let keep ← titleFilterCheck it
      let t ← filterKeep rest
      .ok (if keep then it :: t else t)

/-- First-occurrence deduplication by key, the uniqueMap loop. -/
def dedupByKey : List Value → List String → List Value
  | [], _ => []
  | it :: rest, seen =>
      let k := createUniqueKeyForItem it
      if seen.contains k then dedupByKey rest seen
      else it :: dedupByKey rest (k :: seen)

/-- deduplicateItems: arrays of length at most one are returned untouched;
otherwise null-Title items are dropped, and the remainder deduplicated
first-occurrence-wins by dedup key. -/
def deduplicateItems (items : List Value) : Except JsErr (List Value) :=
  if items.length ≤ 1 then .ok items
  else do
    let filteredItems ← filterKeep items
    if filteredItems.isEmpty then .ok []
    else .ok (dedupByKey filteredItems [])

/-- areArraysEquivalent: equal lengths and every item of the second array
has its key among the first array's keys. -/
def areArraysEquivalent (array1 array2 : List Value) : Bool :=
  array1.length == array2.length &&
  (let array1Keys := array1.map createUniqueKeyForItem
   array2.all (fun it => array1Keys.contains (createUniqueKeyForItem it)))

/-- deduplicateAgainstExisting: drop the new items whose key already occurs
among the existing items. -/
def deduplicateAgainstExisting (newItems existingItems : List Value) : List Value :=
  if newItems.isEmpty || existingItems.isEmpty then newItems
  else
    let existingMap := existingItems.map createUniqueKeyForItem
    newItems.filter (fun it => !(existingMap.contains (createUniqueKeyForItem it)))

/-! ## OleMiss HTML enrichment (src/utils/olemiss.ts, first variant)

The source scrapes an embedded HTML fragment with a fixed set of regular
expressions; each becomes a scanner below. -/

/-- Extracted game details. -/
structure GameDetails where
  Score : Option String := none
  Date : Option String := none
  Time : Option String := none
  EventDate : Option String := none
  DayOfWeek : Option String := none
deriving Repr

/-- Truthiness of an optional string (absent or empty both count false, as
the source tests these fields with plain conditionals). -/
def optStrTruthy (o : Option String) : Bool :=
  match o with
  | some s => s != ""
  | none => false

/-- Drop everything through the first closing angle bracket. -/
def dropThroughGt : List Char → Option (List Char)
  | [] => none
  | c :: t => if c = '>' then some t else dropThroughGt t

theorem dropThroughGt_length {l rest : List Char} (h : dropThroughGt l = some rest) :
    rest.length < l.length := by
  induction l generalizing rest with
  | nil => simp [dropThroughGt] at h
  | cons c t ih =>
      by_cases hc : c = '>'
      · simp [dropThroughGt, hc] at h
        subst h
        simp
      · simp [dropThroughGt, hc] at h
        have := ih h
        simp
        omega

/-- Replace every html tag with a space (the global tag-stripping
replacement of cleanHtml). -/
def stripTags : List Char → List Char
  | [] => []
  | c :: t =>
      if h : c = '<' then
        match hm : dropThroughGt t with
        | some rest => ' ' :: stripTags rest
        | none => c :: stripTags t
      else c :: stripTags t
  termination_by l => l.length
  decreasing_by
    · have := dropThroughGt_length hm
      simp
      omega
    · simp
    · simp

/-- cleanHtml: strip tags, collapse whitespace, trim. -/
def cleanHtml (html : String) : String :=
  jsTrim (String.mk (collapseRuns ' ' false (stripTags html.data)))

/-- One character appended to a reversed capture accumulator. -/
def chAcc (ch : Char) (acc : List Char) (k : List Char → Cont α) : Cont α := fun l =>
  match l with
  | c :: t => if c == ch then k (c :: acc) t else none
  | [] => none

/-- A case-sensitive month appended to a reversed capture accumulator. -/
def monthAtCSAcc (acc : List Char) (k : List Char → Cont α) : Cont α := fun l =>
  match l with
  | a :: b :: c :: t =>
      if monthNames3.contains (String.mk [a, b, c]) then k (c :: b :: a :: acc) t
      else none
  | _ => none

/-- The captured group of the DATE_RANGE regex: lazily scanned text around
a month, a dash and a second month, ending right before the closing
paragraph tag. -/
def dateRangeGroup (k : String → Cont α) : Cont α :=
  manyLazyCapAux (fun c => c != '<')
    (fun a1 => monthAtCSAcc a1 (fun a2 =>
      manyLazyCapAux (fun c => c != '-')
        (fun a3 => chAcc '-' a3 (fun a4 =>
          manyLazyCapAux (fun c => c != '<')
            (fun a5 => monthAtCSAcc a5 (fun a6 =>
              manyLazyCapAux (fun c => c != '<')
                (fun a7 => litThen "</p>" (k (String.mk a7.reverse)))
                a6))
            a4))
        a2))
    []

/-- REGEX.DATE_RANGE: the header game-date element holding an explicit
month-to-month range. -/
def dateRangeAt : Cont String :=
  litThen "data-test-id=\"s-game-card-standard__header-game-date\"" <|
  manyGreedy (fun c => c != '>') <| chThen '>' <|
  dateRangeGroup (fun cap => fun _ => some cap)

/-- REGEX.HEADER_DATE: the raw inner html of the header game-date
element. -/
def headerDateAt : Cont String :=
  litThen "data-test-id=\"s-game-card-standard__header-game-date\"" <|
  manyGreedy (fun c => c != '>') <| chThen '>' <|
  manyLazyCap (fun _ => true) (fun cap => litThen "</p>" (fun _ => some cap))

/-- REGEX.DATE_DETAILS: the date-details span. -/
def dateDetailsAt : Cont String :=
  litThen "data-test-id=\"s-game-card-standard__header-game-date-details\"" <|
  manyGreedy (fun c => c != '>') <| chThen '>' <|
  litThen "<span" <| manyGreedy (fun c => c != '>') <| chThen '>' <|
  many1GreedyCap (fun c => c != '<')
    (fun cap => litThen "</span>" (fun _ => some cap))

/-- REGEX.DAY_OF_WEEK: the parenthesized day-of-week span. -/
def dayOfWeekAt : Cont String :=
  litThen "<span" <| manyGreedy (fun c => c != '>') <|
  litThen "class=\"s-text-paragraph text-theme-muted ml-1\"" <|
  manyGreedy (fun c => c != '>') <| chThen '>' <| chThen '(' <|
  many1GreedyCap (fun c => c != ')')
    (fun cap => chThen ')' <| litThen "</span>" <| fun _ => some cap)

/-- REGEX.TIME: the event-time text after the inline svg icon. -/
def timeAt : Cont String :=
  litThen "aria-label=\"Event Time\"" <|
  manyGreedy (fun c => c != '>') <| chThen '>' <|
  manyLazy (fun _ => true) <| litThen "</svg>" <| spaces0 <|
  many1GreedyCap (fun c => c != '<')
    (fun cap => litThen "</span>" (fun _ => some cap))

/-- The three-letter parenthesized day salvage pattern of
extractGameDetails. -/
def simpleDayAt : Cont String :=
  chThen '(' <| fun l =>
    match l with
    | a :: b :: c :: rest =>
        if a.isAlpha && b.isAlpha && c.isAlpha then
          chThen ')' (fun _ => some (String.mk [a, b, c])) rest
        else none
    | _ => none

/-- A month-space-day run captured verbatim (spacing included), the inner
group of the annotated-range regexes. -/
def mdCap (k : String → Cont α) : Cont α :=
  monthAtCS fun m =>
    many1GreedyCap jsSpace fun sp =>
      digits12 fun d => k (m ++ sp ++ d)

/-- REGEX.DATE_RANGE_WITH_DOW: month-day (dow) - month-day (dow), each
day-of-week inside its own span. -/
def dateRangeWithDowAt : Cont (String × String × String × String) :=
  mdCap fun c1 => spaces0 <| litThen "<span" <|
  manyGreedy (fun c => c != '>') <| chThen '>' <| chThen '(' <|
  many1GreedyCap (fun c => c != ')') fun dow1 => chThen ')' <|
  litThen "</span><span" <| manyGreedy (fun c => c != '>') <| chThen '>' <|
  chThen '-' <| litThen "</span>" <| spaces0 <|
  mdCap fun c2 => spaces0 <| litThen "<span" <|
  manyGreedy (fun c => c != '>') <| chThen '>' <| chThen '(' <|
  many1GreedyCap (fun c => c != ')') fun dow2 => chThen ')' <|
  litThen "</span>" <| fun _ => some (c1, dow1, c2, dow2)

/-- REGEX.SIMPLE_DATE_WITH_DOW: header game-date holding a single month-day
with a day-of-week span. -/
def simpleDateWithDowAt : Cont (String × String) :=
  litThen "data-test-id=\"s-game-card-standard__header-game-date\"" <|
  manyGreedy (fun c => c != '>') <| chThen '>' <|
  mdCap fun c1 => spaces0 <| litThen "<span" <|
  manyGreedy (fun c => c != '>') <| chThen '>' <| chThen '(' <|
  many1GreedyCap (fun c => c != ')') fun dow => chThen ')' <|
  litThen "</span>" <| fun _ => some (c1, dow)

/-- extractGameDetails: best-effort extraction of date, day-of-week, time
and the composed EventDate from a game-card html fragment.  (The source
also accepts a sport-type argument this variant never reads; it is
omitted.) -/
def extractGameDetails (htmlContent : String) : GameDetails :=
  if htmlContent = "" then {} else
  let cs := htmlContent.data
  let dateRangeMatch := findFirst dateRangeAt cs
  let dateDetailsMatch := findFirst dateDetailsAt cs
  let dayOfWeekMatch := findFirst dayOfWeekAt cs
  let timeMatch := findFirst timeAt cs
  let result : GameDetails := {}
  let result :=
    if (dayOfWeekMatch.isNone && strContains htmlContent "(Sun)")
        || strContains htmlContent "(Mon)" || strContains htmlContent "(Tue)"
        || strContains htmlContent "(Wed)" || strContains htmlContent "(Thu)"
        || strContains htmlContent "(Fri)" || strContains htmlContent "(Sat)" then
      match findFirst simpleDayAt cs with
      | some d => { result with DayOfWeek := some d }
      | none => result
    else result
  let result :=
    match dateRangeMatch with
    | some m => { result with Date := some (cleanHtml m) }
    | none => result
  let result :=
    match dateDetailsMatch with
    | some m => { result with Date := some (jsTrim m) }
    | none => result
  let result :=
    match dayOfWeekMatch with
    | some m => { result with DayOfWeek := some (jsTrim m) }
    | none => result
  let result :=
    match timeMatch with
    | some m =>
        if strContains htmlContent "TBA" then { result with Time := some "TBA" }
        else { result with Time := some (if m != "" then jsTrim m else "All Day") }
    | none => result
  if optStrTruthy result.Date then
    let d := result.Date.getD ""
    let ev :=
      if optStrTruthy result.DayOfWeek && optStrTruthy result.Time then
        d ++ " (" ++ result.DayOfWeek.getD "" ++ ") / " ++ result.Time.getD ""
      else if optStrTruthy result.DayOfWeek then
        d ++ " (" ++ result.DayOfWeek.getD "" ++ ")"
      else if optStrTruthy result.Time then
        d ++ " / " ++ result.Time.getD ""
      else d
    { result with EventDate := some ev }
  else result

/-- The shared time-suffix computation of extractHeaderGameDate. -/
def headerTimeInfo (detailSrc : String) : String :=
  match findFirst timeAt detailSrc.data with
  | some t =>
      if t != "" then " / " ++ t
      else if strContains detailSrc "All Day" then " / All Day"
      else if strContains detailSrc "TBA" then " / TBA"
      else ""
  | none =>
      if strContains detailSrc "All Day" then " / All Day"
      else if strContains detailSrc "TBA" then " / TBA"
      else ""

/-- extractHeaderGameDate: the (formattedDate, rawDate) pair scraped from
the header game-date element, trying the annotated range, the annotated
single date, then the plain header text. -/
def extractHeaderGameDate (currentYear : Nat) (detailSrc : String) :
    Option String × Option String :=
  if detailSrc = "" then (none, none) else
  let cs := detailSrc.data
  match findFirst dateRangeWithDowAt cs with
  | some (c1, dow1, c2, dow2) =>
      let startMonth := (strSplitChar c1 ' ').getD 0 ""
      let startDay := (strSplitChar c1 ' ').getD 1 ""
      let endMonth := (strSplitChar c2 ' ').getD 0 ""
      let endDay := (strSplitChar c2 ' ').getD 1 ""
      let timeInfo := headerTimeInfo detailSrc
      let rawDate := startMonth ++ " " ++ startDay ++ " (" ++ dow1 ++ ") - " ++
        endMonth ++ " " ++ endDay ++ " (" ++ dow2 ++ ")" ++ timeInfo
      let formattedDate := toString currentYear ++ "-" ++
        getMonthNumber (strToLower startMonth) ++ "-" ++ padStart2 startDay
      (some formattedDate, some rawDate)
  | none =>
  match findFirst simpleDateWithDowAt cs with
  | some (c1, dow) =>
      let month := (strSplitChar c1 ' ').getD 0 ""
      let day := (strSplitChar c1 ' ').getD 1 ""
      let timeInfo := headerTimeInfo detailSrc
      let rawDate := month ++ " " ++ day ++ " (" ++ dow ++ ")" ++ timeInfo
      let formattedDate := toString currentYear ++ "-" ++
        getMonthNumber (strToLower month) ++ "-" ++ padStart2 day
      (some formattedDate, some rawDate)
  | none =>
  match findFirst headerDateAt cs with
  | some capture =>
      let cleanedDate := cleanHtml capture
      if cleanedDate != "" then
        match findFirst simpleAt cleanedDate.data with
        | some (month, day) =>
            let formattedDate := toString currentYear ++ "-" ++
              getMonthNumber (strToLower month) ++ "-" ++ padStart2 day
            (some formattedDate, some cleanedDate)
        | none => (none, some cleanedDate)
      else (none, some cleanedDate)
  | none => (none, none)

/-- updateDateFields: standardize a date string into the Date (and, for
ranges, EventEndDate) fields; an unparseable string is stored verbatim in
Date and EventEndDate is left alone. -/
def updateDateFields (currentYear : Nat) (dateString : String) (label : Value) : Value :=
  match parseEventDate currentYear dateString with
  | some (s, e) =>
      let l := setField label "Date" (.vstr s)
      if e != s then setField l "EventEndDate" (.vstr e) else l
  | none => setField label "Date" (.vstr dateString)

/-- processDateInformation: route a resolved raw date string into the
EventDate / Date / EventEndDate fields, with the game-details fallbacks. -/
def processDateInformation (currentYear : Nat) (dateSource : Option String)
    (gameDetails : GameDetails) (label : Value) : Value :=
  match dateSource with
  | none => label
  | some dsrc =>
      let label :=
        if strContains dsrc " - " && (strContains dsrc "(" || strContains dsrc ")") then
          let l := setField label "EventDate" (.vstr dsrc)
          match parseEventDate currentYear dsrc with
          | some (s, e) =>
              let l := setField l "Date" (.vstr s)
              if e != s then setField l "EventEndDate" (.vstr e) else l
          | none => l
        else updateDateFields currentYear dsrc label
      let label :=
        if optStrTruthy gameDetails.EventDate &&
            !(optTruthy (getField label "EventDate")) then
          setField label "EventDate" (.vstr (gameDetails.EventDate.getD ""))
        else label
      match getField label "EventDate", gameDetails.Time with
      | some (.vstr ed), some t =>
          if ed != "" && t != "" && !(strContains ed t) then
            setField label "EventDate" (.vstr (ed ++ " / " ++ t))
          else label
      | _, _ => label

/-- Helper bound on dropWhile used by the termination proof below. -/
theorem length_dropWhile_le_local (p : Char → Bool) (l : List Char) :
    (l.dropWhile p).length ≤ l.length := by
  induction l with
  | nil => simp
  | cons c t ih =>
      by_cases h : p c
      · simp [List.dropWhile, h]
        omega
      · simp [List.dropWhile, h]

/-- The global numeric parameter replacement of the logo transform: every
occurrence of the parameter name followed by digits is rewritten to the
parameter name followed by 200. -/
def replaceNumParam (pat : List Char) : List Char → List Char
  | [] => []
  | c :: t =>
      if pat.isPrefixOf (c :: t) then
        match hr : (c :: t).drop pat.length with
        | d :: r =>
            if d.isDigit then
              pat ++ ['2', '0', '0'] ++
                replaceNumParam pat (List.dropWhile Char.isDigit r)
            else c :: replaceNumParam pat t
        | [] => c :: replaceNumParam pat t
      else c :: replaceNumParam pat t
  termination_by l => l.length
  decreasing_by
    · have h1 : (List.dropWhile Char.isDigit r).length ≤ r.length :=
        length_dropWhile_le_local _ _
      have h2 := congrArg List.length hr
      simp [List.length_drop] at h2
      simp
      omega
    · simp
    · simp
    · simp

/-- transformOleMissLogoUrl: pin the image-cropping parameters of a
recognized logo url to 200 by 200, idempotently. -/
def transformOleMissLogoUrl (logoUrl : String) : String :=
  if logoUrl = "" then logoUrl else
  if strContains logoUrl "sidearmdev.com/crop" &&
      (strContains logoUrl "width=" || strContains logoUrl "height=") then
    String.mk (replaceNumParam "height=".data (replaceNumParam "width=".data logoUrl.data))
  else logoUrl

/-- processOleMissItem: enrich a normalized item from its embedded
game-card html when present.  (The source computes a sport type from the
nonexistent Sport field and passes it to extractGameDetails, which ignores
it; both are omitted here.) -/
def processOleMissItem (currentYear : Nat) (processedItem newLabel : Value)
    (docName originUrl : String) : Value :=
  match getField processedItem "DetailSrc" with
  | some (.vstr ds) =>
      if ds != "" && strContains ds "s-game-card-standard__header" then
        let gameDetails := extractGameDetails ds
        let headerGameDate := extractHeaderGameDate currentYear ds
        let l1 :=
          if optStrTruthy gameDetails.Score then
            setField newLabel "Score" (.vstr (gameDetails.Score.getD ""))
          else newLabel
        let l2 :=
          if optStrTruthy gameDetails.Time then
            setField l1 "Time" (.vstr (gameDetails.Time.getD ""))
          else l1
        let dateSource : Option String :=
          if optStrTruthy headerGameDate.2 then headerGameDate.2
          else if optStrTruthy gameDetails.Date then gameDetails.Date
          else none
        let l3 := processDateInformation currentYear dateSource gameDetails l2
        match getField l3 "Logo" with
        | some (.vstr s) =>
            if s != "" then setField l3 "Logo" (.vstr (transformOleMissLogoUrl s))
            else l3
        | _ => l3
      else newLabel
  | _ => newLabel

/-! ## The recursive cleaner and list processor
(src/utils/browseai.utils.ts, lines 119-297) -/

/-- The base allowed content fields of the Item Normalizer. -/
def baseAllowedFields : List String :=
  ["Date", "ImageUrl", "Location", "Logo", "Time", "Description", "Title", "uid"]

/-- The additional allowed fields for the recognized source site. -/
def oleMissExtraFields : List String :=
  ["Score", "EventDate", "EventEndDate", "Sports", "DetailSrc"]

/-- Is the item from the recognized source site (exact domain identifier or
substring of the origin url). -/
def isOleMissSource (docName originUrl : String) : Bool :=
  docName == "olemisssports.com" || strContains originUrl "olemisssports.com"

/-- The uid prefix: list name lowercased with whitespace runs
hyphenated. -/
def hyphenateKey (key : String) : String :=
  String.mk (collapseRuns '-' false (strToLower key).data)

/-- Copy the allowed fields of the processed item onto the fresh label, in
iteration order. -/
def copyAllowed : List (String × Value) → List String → Value → Value
  | [], _, label => label
  | (k, v) :: rest, allowed, label =>
      copyAllowed rest allowed
        (if allowed.contains k then setField label k v else label)

/-- The inline date normalization step of processArrayItem (lines 284-289):
a string Date field not already in YYYY-MM-DD form is passed through
parseDateString. -/
def normalizeDateField (label : Value) : Value :=
  match getField label "Date" with
  | some (.vstr d) =>
      if d != "" && !(isYYYYMMDD d) then
        setField label "Date" (.vstr (parseDateString d))
      else label
  | _ => label

mutual

/-- cleanDataFields: recursively clean a captured value.  Null and
non-objects are returned unchanged; arrays are cleaned elementwise;
objects go through processObjectFields.  The opaque Timestamp model is
treated as an object without enumerable fields.  The fuel argument is the
recursion budget of the embedding (see JsErr.outOfFuel); the source
recursion is structural on the value, so any budget above the value's
depth is enough. -/
def cleanDataFields (fuel now year : Nat) (data existingData : Value)
    (originUrl docName : String) : Except JsErr Value :=
  match fuel with
  | 0 => .error .outOfFuel
  | fuel + 1 =>
      match data with
      | .varr xs => do
          let ys ← cleanList fuel now year xs existingData originUrl docName
          .ok (.varr ys)
      | .vobj fs => do
          let gs ← processObjectFields fuel now year fs [] existingData originUrl docName
          .ok (.vobj gs)
      | .vts _ => .ok (.vobj [])
      | other => .ok other
  termination_by structural fuel

/-- Elementwise cleaning of a bare array (the map branch of
cleanDataFields). -/
def cleanList (fuel now year : Nat) (xs : List Value) (existingData : Value)
    (originUrl docName : String) : Except JsErr (List Value) :=
  match fuel with
  | 0 => .error .outOfFuel
  | fuel + 1 =>
      match xs with
      | [] => .ok []
      | x :: rest => do
          let h ← cleanDataFields fuel now year x existingData originUrl docName
          let t ← cleanList fuel now year rest existingData originUrl docName
          .ok (h :: t)
  termination_by structural fuel

/-- processObjectFields: iterate an object's entries in order, dropping the
position (any case) and _STATUS bookkeeping keys, routing array values
through processArrayField with the key as the list name, recursing into
nested objects, and copying scalars verbatim. -/
def processObjectFields (fuel now year : Nat) (fields : List (String × Value))
    (cleaned : List (String × Value)) (existingData : Value)
    (originUrl docName : String) : Except JsErr (List (String × Value)) :=
  match fuel with
  | 0 => .error .outOfFuel
  | fuel + 1 =>
      match fields with
      | [] => .ok cleaned
      | (key, value) :: rest =>
          if strToLower key = "position" || key = "_STATUS" then
            processObjectFields fuel now year rest cleaned existingData originUrl docName
          else do
            let v ← processFieldValue fuel now year key value existingData originUrl docName
            processObjectFields fuel now year rest (setKey cleaned key v) existingData
              originUrl docName
  termination_by structural fuel

/-- One field of processObjectFields: arrays are routed through
processArrayField under their key; objects recurse; scalars copy
verbatim. -/
def processFieldValue (fuel now year : Nat) (key : String) (value : Value)
    (existingData : Value) (originUrl docName : String) : Except JsErr Value :=
  match fuel with
  | 0 => .error .outOfFuel
  | fuel + 1 =>
      match value with
      | .varr xs => do
          let c ← processArrayField fuel now year key xs existingData originUrl docName
          Except.ok (Value.varr c)
      | other =>
          if isObjType other then
            cleanDataFields fuel now year other existingData originUrl docName
          else .ok other
  termination_by structural fuel

/-- The indexed normalization map at the head of processArrayField. -/
def processItems (fuel now year : Nat) (key : String) (value : List Value)
    (index : Nat) (existingData : Value) (originUrl docName : String) :
    Except JsErr (List Value) :=
  match fuel with
  | 0 => .error .outOfFuel
  | fuel + 1 =>
      match value with
      | [] => .ok []
      | it :: rest => do
          let h ← processArrayItem fuel now year it key index existingData originUrl docName
          let t ← processItems fuel now year key rest (index + 1) existingData originUrl docName
          .ok (h :: t)
  termination_by structural fuel

/-- processArrayField: normalize and deduplicate a named captured array,
then reconcile it with the previously persisted array of the same name. -/
def processArrayField (fuel now year : Nat) (key : String) (value : List Value)
    (existingData : Value) (originUrl docName : String) :
    Except JsErr (List Value) :=
  match fuel with
  | 0 => .error .outOfFuel
  | fuel + 1 => do
      let existingArray := getPath2 existingData "data" key
      let processedItems ← processItems fuel now year key value 0 existingData originUrl docName
      let deduplicated ← deduplicateItems processedItems
      if deduplicated.isEmpty then .ok []
      else
        match existingArray with
        | some (.varr existing) =>
            if areArraysEquivalent deduplicated existing then .ok existing
            else
              let finalItems := deduplicateAgainstExisting deduplicated existing
              if finalItems.isEmpty then .ok existing
              else .ok (existing ++ finalItems)
        | _ => .ok deduplicated
  termination_by structural fuel

/-- processArrayItem: normalize one raw element into an Item: clean it,
attach uid / Title / originUrl, copy the allowed fields, run the site
enrichment for the recognized source, normalize the Date field, and
default the ImageUrl field to the empty string when absent on both the
label and the raw element.  Null elements raise the Object.keys TypeError;
primitive elements raise the in-operator TypeError. -/
def processArrayItem (fuel now year : Nat) (item : Value) (key : String)
    (index : Nat) (existingData : Value) (originUrl docName : String) :
    Except JsErr Value :=
  match fuel with
  | 0 => .error .outOfFuel
  | fuel + 1 => do
      let processedItem ← cleanDataFields fuel now year item existingData originUrl docName
      let uid := hyphenateKey key ++ "-" ++ toString now ++ "-" ++ toString index
      let newLabel : Value :=
        .vobj [("uid", .vstr uid), ("Title", .vstr key), ("originUrl", .vstr originUrl)]
      let oleMiss := isOleMissSource docName originUrl
      let allowedFields := baseAllowedFields ++ (if oleMiss then oleMissExtraFields else [])
      let entries ← objEntriesOrThrow processedItem
      let newLabel := copyAllowed entries allowedFields newLabel
      let newLabel :=
        if oleMiss then processOleMissItem year processedItem newLabel docName originUrl
        else newLabel
      let newLabel := normalizeDateField newLabel
      if hasField newLabel "ImageUrl" then .ok newLabel
      else
        match item with
        | .vobj fs =>
            if (lookupField fs "ImageUrl").isSome then .ok newLabel
            else .ok (setField newLabel "ImageUrl" (.vstr ""))
        | .varr _ => .ok (setField newLabel "ImageUrl" (.vstr ""))
        | .vts _ => .ok (setField newLabel "ImageUrl" (.vstr ""))
        | _ => .error (.typeError "Cannot use in operator to search for ImageUrl")

  termination_by structural fuel
end

/-! ## Document merge engine (src/utils/browseai.utils.ts, lines 12-81) -/

/-- The per-key merge loop of appendNewData: when the existing value under
the key is a truthy array and the new value is an array, append; otherwise
replace or add.  (Arrays, even empty ones, are always truthy.) -/
def mergeLoop : List (String × Value) → Value → Value
  | [], merged => merged
  | (key, newValue) :: rest, merged =>
      let dataObj := (getField merged "data").getD .vnull
      let merged :=
        match getField dataObj key, newValue with
        | some (.varr existingArr), .varr newArr =>
            setField merged "data" (setField dataObj key (.varr (existingArr ++ newArr)))
        | _, _ =>
            setField merged "data" (setField dataObj key newValue)
      mergeLoop rest merged

/-- appendNewData: no existing document data means a fresh document wrap;
otherwise deep-copy (identity on these immutable trees), ensure the data
object exists, and merge every processed key. -/
def appendNewData (existingData : Option Value) (processedData : Value) : Value :=
  match existingData with
  | none => .vobj [("data", processedData)]
  | some existing =>
      let mergedData :=
        if optTruthy (getField existing "data") then existing
        else setField existing "data" (.vobj [])
      mergeLoop (objEntries processedData) mergedData

/-! ## Firestore conversion (src/utils/firestore.ts, lines 10-46) -/

/-- The anchored Y-M-DTh:m:s prefix test used to spot ISO datetime
strings. -/
def isIsoDateTimePrefix (s : String) : Bool :=
  match s.data with
  | y1 :: y2 :: y3 :: y4 :: h1 :: m1 :: m2 :: h2 :: d1 :: d2 :: tc :: hh1 :: hh2 ::
      c1 :: mm1 :: mm2 :: c2 :: ss1 :: ss2 :: _ =>
      y1.isDigit && y2.isDigit && y3.isDigit && y4.isDigit && h1 = '-' &&
      m1.isDigit && m2.isDigit && h2 = '-' && d1.isDigit && d2.isDigit &&
      tc = 'T' && hh1.isDigit && hh2.isDigit && c1 = ':' && mm1.isDigit &&
      mm2.isDigit && c2 = ':' && ss1.isDigit && ss2.isDigit
  | _ => false

mutual
/-- convertToFirestoreFormat: null and undefined collapse to null, arrays
and objects recurse, and ISO datetime string fields become Timestamps (the
Date-instance branch cannot occur in a JSON payload; Timestamp validity is
assumed for well-formed ISO strings). -/
def convertToFirestoreFormat : Value → Value
  | .vnull => .vnull
  | .vts t => .vts t
  | .varr xs => .varr (convertListFs xs)
  | .vobj fs => .vobj (convertFieldsFs fs)
  | v => v

/-- Array elements of convertToFirestoreFormat. -/
def convertListFs : List Value → List Value
  | [] => []
  | x :: rest => convertToFirestoreFormat x :: convertListFs rest

/-- Object fields of convertToFirestoreFormat, with the ISO datetime check
applied to direct string fields. -/
def convertFieldsFs : List (String × Value) → List (String × Value)
  | [] => []
  | (k, .vstr s) :: rest =>
      (k, if isIsoDateTimePrefix s then Value.vts s else Value.vstr s) :: convertFieldsFs rest
  | (k, v) :: rest => (k, convertToFirestoreFormat v) :: convertFieldsFs rest
end

/-! ## Domain identifier extraction (src/utils/browseai.utils.ts, 88-109) -/

/-- Characters that end the authority section of a url. -/
def authorityEnd (c : Char) : Bool :=
  c = '/' || c = '?' || c = '#'

/-- Characters a hostname may not contain. -/
def hostForbidden (c : Char) : Bool :=
  c = ' ' || c = '\t' || c = '\n' || c = '\r' || c = '#' || c = '/' ||
  c = '?' || c = '@' || c = ':' || c = '\\' || c = '<' || c = '>' ||
  c = '|' || c = '^' || c = '"'

/-- Model of the hostname produced by the JS URL constructor, restricted to
scheme://host... url shapes (the only shapes this system receives): a
letter-led scheme, the double slash, an authority cut at the first
delimiter, userinfo stripped at the last at-sign, the port stripped at the
first colon, and the host lowercased; anything else is a parse failure,
standing for the constructor throwing. -/
def parseUrlHostname (u : String) : Option String :=
  let cs := (jsTrim u).data
  match cs with
  | c :: rest =>
      if c.isAlpha then
        let schemeRest := rest.dropWhile (fun d => d.isAlpha || d.isDigit ||
          d = '+' || d = '-' || d = '.')
        match schemeRest with
        | ':' :: '/' :: '/' :: tail =>
            let authority := tail.takeWhile (fun d => !(authorityEnd d))
            let hostport := (strSplitChar (String.mk authority) '@').getLastD ""
            let host := String.mk (hostport.data.takeWhile (fun d => d != ':'))
            if host != "" && host.data.all (fun d => !(hostForbidden d)) then
              some (strToLower host)
            else none
        | _ => none
      else none
  | [] => none

/-- extractDomainIdentifier: the last two dot-separated labels of the url
host (the whole host when it has fewer than two labels); the literal
unknown for a missing, empty, sentinel or unparseable url. -/
def extractDomainIdentifier (url : String) : String :=
  if url != "" && url != "unknown" then
    match parseUrlHostname url with
    | some hostname =>
        let parts := strSplitChar hostname '.'
        if parts.length ≥ 2 then
          joinSep "." (parts.drop (parts.length - 2))
        else hostname
    | none => "unknown"
  else "unknown"

/-! ## Ingestion orchestrator
(src/services/browseAI/browseAI.service.ts, processWebhookData and the
three storeCaptured helpers)

The document store is an external collaborator: it is a parameter mapping
collection and document name to a read outcome (with an error standing for
a store failure), plus a commit outcome.  The performed store operations
are returned as an explicit trace, reads in order, then the staged batch
writes, then the commit. -/

/-- One store operation of a webhook delivery. -/
inductive StoreOp where
  | read (collection doc : String)
  | write (collection doc : String) (body : Value)
  | commit
deriving Repr

/-- The abstract document store. -/
structure Store where
  readRes : String → String → Except Unit (Option Value)
  commitOk : Bool

/-- A store whose reads all succeed with no document and whose commits
succeed. -/
def emptyStore : Store :=
  { readRes := fun _ _ => .ok none, commitOk := true }

/-- Service-level error classification: the structured 400 object thrown on
a missing task envelope; propagated JS processing errors; store
failures. -/
inductive SvcErr where
  | client (status : Nat) (message details : String)
  | js (e : JsErr)
  | store
deriving DecidableEq, Repr

/-- storeCapturedTexts: read the existing document, convert and clean the
captured texts against it, and stage the appended or fresh document
body. -/
def storeCapturedTexts (st : Store) (fuel now year : Nat) (docName originUrl : String)
    (texts : Value) : List StoreOp × Except SvcErr StoreOp :=
  let ops := [StoreOp.read "captured_texts" docName]
  match st.readRes "captured_texts" docName with
  | .error _ => (ops, .error .store)
  | .ok snap =>
      let textsData := convertToFirestoreFormat texts
      let existingData := (snap.getD .vnull)
      match cleanDataFields fuel now year textsData existingData originUrl docName with
      | .error e => (ops, .error (.js e))
      | .ok processedData =>
          match snap with
          | some d =>
              (ops, .ok (.write "captured_texts" docName (appendNewData (some d) processedData)))
          | none =>
              (ops, .ok (.write "captured_texts" docName (.vobj [("data", processedData)])))

/-- storeCapturedScreenshots: as for texts, except a fresh document also
records a timestamp and the origin url. -/
def storeCapturedScreenshots (st : Store) (fuel now year : Nat) (docName originUrl : String)
    (screenshots : Value) : List StoreOp × Except SvcErr StoreOp :=
  let ops := [StoreOp.read "captured_screenshots" docName]
  match st.readRes "captured_screenshots" docName with
  | .error _ => (ops, .error .store)
  | .ok snap =>
      let screenshotsData := convertToFirestoreFormat screenshots
      let existingData := (snap.getD .vnull)
      match cleanDataFields fuel now year screenshotsData existingData originUrl docName with
      | .error e => (ops, .error (.js e))
      | .ok processedData =>
          match snap with
          | some d =>
              (ops, .ok (.write "captured_screenshots" docName (appendNewData (some d) processedData)))
          | none =>
              (ops, .ok (.write "captured_screenshots" docName
                (.vobj [("data", processedData), ("timestamp", .vts (toString now)),
                        ("originUrl", .vstr originUrl)])))

/-- storeCapturedLists: identical shape to the texts path over the lists
collection. -/
def storeCapturedLists (st : Store) (fuel now year : Nat) (docName originUrl : String)
    (lists : Value) : List StoreOp × Except SvcErr StoreOp :=
  let ops := [StoreOp.read "captured_lists" docName]
  match st.readRes "captured_lists" docName with
  | .error _ => (ops, .error .store)
  | .ok snap =>
      let listsData := convertToFirestoreFormat lists
      let existingData := (snap.getD .vnull)
      match cleanDataFields fuel now year listsData existingData originUrl docName with
      | .error e => (ops, .error (.js e))
      | .ok processedData =>
          match snap with
          | some d =>
              (ops, .ok (.write "captured_lists" docName (appendNewData (some d) processedData)))
          | none =>
              (ops, .ok (.write "captured_lists" docName (.vobj [("data", processedData)])))

/-- Should a capture section be processed: present, truthy, and with at
least one enumerable key. -/
def captureNonEmpty (task : Value) (key : String) : Bool :=
  optTruthy (getField task key) &&
  (objEntries ((getField task key).getD .vnull)).length > 0

/-- The success envelope returned by the service. -/
def successEnvelope (now : Nat) : Value :=
  .vobj [("success", .vbool true),
         ("meta", .vobj [("processedAt", .vts (toString now)),
                         ("collections", .varr [.vstr "captured_texts",
                                                .vstr "captured_screenshots",
                                                .vstr "captured_lists"])])]

/-- Run the sequence of (possibly skipped) capture-section steps in order:
a skipped section contributes nothing, the first failing section stops the
delivery with its error after recording its reads, and otherwise each
section contributes its reads and its staged write. -/
def collectSteps : List (Option (List StoreOp × Except SvcErr StoreOp)) →
    List StoreOp → List StoreOp → List StoreOp × Except SvcErr (List StoreOp)
  | [], reads, writes => (reads, .ok writes)
  | none :: rest, reads, writes => collectSteps rest reads writes
  | some (ops, .error e) :: _, reads, _ => (reads ++ ops, .error e)
  | some (ops, .ok w) :: rest, reads, writes =>
      collectSteps rest (reads ++ ops) (writes ++ [w])

/-- The post-validation body of processWebhookData: derive the origin url
from the first input parameter (falling back to the unknown sentinel) and
the domain identifier from it, process each present non-empty capture
section against the store in order, and commit the staged writes as one
batch.  The returned trace lists reads, staged writes, then the commit. -/
def processTask (st : Store) (fuel now year : Nat) (task : Value) :
    List StoreOp × Except SvcErr Value :=
  let inputParams :=
    if optTruthy (getField task "inputParameters") then
      (getField task "inputParameters").getD .vnull
    else .vobj []
  let firstValue := ((objEntries inputParams).head?).map (fun p => p.2)
  let originUrl :=
    match firstValue with
    | some v => if truthy v then jsToString v else "unknown"
    | none => "unknown"
  let docName := extractDomainIdentifier originUrl
  let step1 :=
    if captureNonEmpty task "capturedTexts" then
      some (storeCapturedTexts st fuel now year docName originUrl
        ((getField task "capturedTexts").getD .vnull))
    else none
  let step2 :=
    if captureNonEmpty task "capturedScreenshots" then
      some (storeCapturedScreenshots st fuel now year docName originUrl
        ((getField task "capturedScreenshots").getD .vnull))
    else none
  let step3 :=
    if captureNonEmpty task "capturedLists" then
      some (storeCapturedLists st fuel now year docName originUrl
        ((getField task "capturedLists").getD .vnull))
    else none
  match collectSteps [step1, step2, step3] [] [] with
  | (reads, .error e) => (reads, .error e)
  | (reads, .ok writes) =>
      if st.commitOk then (reads ++ writes ++ [StoreOp.commit], .ok (successEnvelope now))
      else (reads ++ writes ++ [StoreOp.commit], .error .store)

/-- processWebhookData: validate the task envelope (a missing or falsy one
is the structured 400 client error, before any store access) and hand the
task to the section processor. -/
def processWebhookData (st : Store) (fuel now year : Nat) (payload : Value) :
    List StoreOp × Except SvcErr Value :=
  if !(truthy payload && optTruthy (getField payload "task")) then
    ([], .error (.client 400 "Invalid webhook data structure"
      "The webhook payload is missing required task information"))
  else
    processTask st fuel now year ((getField payload "task").getD .vnull)

/-! ## Observers used to state concrete facts about outputs -/

/-- A string field of an object, when it is one. -/
def getStrField (v : Value) (k : String) : Option String :=
  match getField v k with
  | some (.vstr s) => some s
  | _ => none

/-- Length of an optional array value. -/
def arrLenAt (o : Option Value) : Option Nat :=
  match o with
  | some (.varr xs) => some xs.length
  | _ => none

/-- Is the optional value an array. -/
def isArrAt (o : Option Value) : Bool :=
  match o with
  | some (.varr _) => true
  | _ => false

/-- The first staged write body for a collection in an operation trace. -/
def findWrite : List StoreOp → String → Option Value
  | [], _ => none
  | .write c _ body :: rest, coll =>
      if c = coll then some body else findWrite rest coll
  | _ :: rest, coll => findWrite rest coll

/-- Did the service answer with the structured 400 client error. -/
def isClient400 : Except SvcErr Value → Bool
  | .error (.client 400 _ _) => true
  | _ => false

/-- Is a service error of the client class (any status). -/
def isClientErr : SvcErr → Bool
  | .client _ _ _ => true
  | _ => false

/-- Did the service propagate a JS processing error. -/
def isJsError : Except SvcErr Value → Bool
  | .error (.js _) => true
  | _ => false

/-- Did the service succeed. -/
def isOkRes : Except SvcErr Value → Bool
  | .ok _ => true
  | _ => false

/-- An item whose Title is null or undefined (the malformed-scrape
condition of the filter). -/
def titleIsNullish (v : Value) : Bool :=
  match getField v "Title" with
  | some .vnull => true
  | none => true
  | some _ => false

/-- Is the value a plain object. -/
def isVobj : Value → Bool
  | .vobj _ => true
  | _ => false

/-- Length of a processed list, when processing succeeded. -/
def exceptListLen : Except JsErr (List Value) → Option Nat
  | .ok l => some l.length
  | .error _ => none

/-- A field of a successfully processed item. -/
def excField : Except JsErr Value → String → Option Value
  | .ok v, k => getField v k
  | .error _, _ => none

/-- A string field of a successfully processed item. -/
def excGetStr : Except JsErr Value → String → Option String
  | .ok v, k => getStrField v k
  | .error _, _ => none

/-- The TypeError message of a failed item normalization. -/
def errMsgJs : Except JsErr Value → Option String
  | .error (.typeError m) => some m
  | _ => none

/-- The TypeError message of a failed webhook delivery. -/
def errMsgSvc : Except SvcErr Value → Option String
  | .error (.js (.typeError m)) => some m
  | _ => none

/-- Did any normalized item with a null-or-undefined Title survive
processing. -/
def anyNullishTitle : Except JsErr (List Value) → Bool
  | .ok l => l.any titleIsNullish
  | .error _ => false

/-! ## Spec-side definitions

These two definitions follow the wording of the claims (not the source);
the corresponding theorems compare them with the source-derived
functions. -/

/-- Claim-side dedup key, following the claim wording: the key is computed
from Title together with EventDate, Location, Sports when the item's
origin is the recognized source site, or with Location, Date, Time
otherwise, each restricted to the fields actually present on the item
(present in the JS sense of carrying a truthy value); if none of these
preferred fields is present, all scalar fields except uid are used. -/
def dedupKeySpec (item : Value) : String :=
  let fields := objEntries item
  let recognized :=
    optTruthy (lookupField fields "originUrl") &&
    strContains (jsToStringOpt (lookupField fields "originUrl")) "olemisssports.com"
  let preferred : List String :=
    if recognized then ["Title", "EventDate", "Location", "Sports"]
    else ["Title", "Location", "Date", "Time"]
  let present := preferred.filter (fun f => optTruthy (lookupField fields f))
  let chosen :=
    if present.isEmpty then
      (fields.map (fun p => p.1)).filter
        (fun k => isScalarNonNull (lookupField fields k) && k != "uid")
    else present
  joinSep "|"
    (chosen.map (fun f => f ++ ":" ++ jsToStringOpt (lookupField fields f)))

/-- Claim-side first-occurrence deduplication, fueled by the list length:
keep each item and drop every later item carrying an equal dedup key. -/
def specFirstOccurAux : Nat → List Value → List Value
  | 0, _ => []
  | _, [] => []
  | fuel + 1, x :: rest =>
      x :: specFirstOccurAux fuel (rest.filter
        (fun y => createUniqueKeyForItem y != createUniqueKeyForItem x))

/-- Claim-side first-occurrence deduplication. -/
def specFirstOccur (xs : List Value) : List Value :=
  specFirstOccurAux xs.length xs

/-- Claim-side key-set equality: same cardinality and every new key present
in the old key set. -/
def keySetEqClaim (newItems oldItems : List Value) : Prop :=
  (newItems.map createUniqueKeyForItem).dedup.length =
    (oldItems.map createUniqueKeyForItem).dedup.length ∧
  ∀ k ∈ newItems.map createUniqueKeyForItem, k ∈ oldItems.map createUniqueKeyForItem

instance keySetEqClaimDec (a b : List Value) : Decidable (keySetEqClaim a b) := by
  unfold keySetEqClaim
  infer_instance

/-! ## Concrete fixtures used by counterexamples and witnesses -/

/-- The origin url of the worked scenarios. -/
def oleUrl : String := "https://www.olemisssports.com/calendar"

/-- Its domain identifier. -/
def oleDocName : String := extractDomainIdentifier oleUrl

/-- The Tucson softball raw item of the spec scenarios. -/
def rawTucsonItem : Value :=
  .vobj [("EventDate", .vstr "May 18"), ("Location", .vstr "Tucson"),
         ("Sports", .vstr "SB")]

/-- A one-item capture of that raw item. -/
def tucsonCapture : Value := .vobj [("OleSports", .varr [rawTucsonItem])]

/-- The persisted document after the first delivery of the capture into an
empty store. -/
def firstDeliveryDoc : Value :=
  .vobj [("data",
    (cleanDataFields 100 7 2025 tucsonCapture .vnull oleUrl oleDocName).toOption.getD .vnull)]

/-- The persisted document after re-delivering the identical capture
against the first document (clean against the existing snapshot, then
merge). -/
def secondDeliveryDoc : Value :=
  appendNewData (some firstDeliveryDoc)
    ((cleanDataFields 100 8 2025 tucsonCapture firstDeliveryDoc oleUrl oleDocName).toOption.getD .vnull)

/-- An existing one-item array and its wrapping document, for the
empty-redelivery counterexample. -/
def c2Existing : List Value := [.vobj [("Title", .vstr "x"), ("originUrl", .vstr "u")]]

/-- The document wrapping that array under the key k. -/
def c2ExistingDoc : Value := .vobj [("data", .vobj [("k", .varr c2Existing)])]

/-- A singleton capture whose only item has a null Title. -/
def c6SingletonRun : Except JsErr (List Value) :=
  processArrayField 100 7 2025 "OleSports" [.vobj [("Title", .vnull)]] .vnull "u" "d"

/-- The first-delivery scenario payload: null-titled item plus the Tucson
item, under OleSports. -/
def c6Payload : Value :=
  .vobj [("task", .vobj [
    ("inputParameters", .vobj [("originUrl", .vstr oleUrl)]),
    ("capturedLists", .vobj [("OleSports",
      .varr [.vobj [("Title", .vnull)], rawTucsonItem])])])]

/-- A payload whose captured list contains a null element. -/
def c9Payload : Value :=
  .vobj [("task", .vobj [
    ("inputParameters", .vobj [("originUrl", .vstr "https://example.com/x")]),
    ("capturedLists", .vobj [("L", .varr [.vnull])])])]

/-- A payload with a task envelope but no inputParameters. -/
def c7Payload : Value := .vobj [("task", .vobj [("id", .vstr "t1")])]

/-- A store whose every read fails. -/
def failStore : Store :=
  { readRes := fun _ _ => .error (), commitOk := true }

/-- The normalized item of a concrete raw object without an ImageUrl
field. -/
def c3wOut : Value :=
  (processArrayItem 10 7 2025 (.vobj [("Location", .vstr "X")]) "K" 0 .vnull
    "u" "d").toOption.getD .vnull

/-- A payload whose task carries a non-empty capturedTexts section but no
inputParameters. -/
def c7bPayload : Value :=
  .vobj [("task", .vobj [("id", .vstr "t1"),
                         ("capturedTexts", .vobj [("k", .vstr "v")])])]

/-- A four-digit year string (what getFullYear renders today). -/
def isYear4 (s : String) : Bool :=
  s.data.length == 4 && s.data.all Char.isDigit

/-- The staged captured_lists write of the first-delivery scenario. -/
def c6Write : Value :=
  (findWrite (processWebhookData emptyStore 100 7 2025 c6Payload).1
    "captured_lists").getD .vnull

/-- The single item persisted under OleSports in that scenario. -/
def c6Item : Value :=
  match getPath2 c6Write "data" "OleSports" with
  | some (.varr (it :: _)) => it
  | _ => .vnull

/-- A two-element list whose first item carries a null Title. -/
def c6wItems : List Value :=
  [.vobj [("Title", .vnull)], .vobj [("Title", .vstr "T"), ("Location", .vstr "X")]]

/-- Its deduplication result. -/
def c6wOut : List Value := (deduplicateItems c6wItems).toOption.getD []

/-- The data fields of the first-delivery document. -/
def firstDataFields : List (String × Value) :=
  objEntries ((getField firstDeliveryDoc "data").getD .vnull)

/-- The persisted OleSports array after the first delivery. -/
def firstOleArr : List Value :=
  match getPath2 firstDeliveryDoc "data" "OleSports" with
  | some (.varr l) => l
  | _ => []

/-- The normalized items of the re-delivered capture. -/
def c1wProcd : List Value :=
  (processItems 99 8 2025 "OleSports" [rawTucsonItem] 0 firstDeliveryDoc
    oleUrl oleDocName).toOption.getD []

/-- Those items after self-deduplication. -/
def c1wDedup : List Value :=
  (deduplicateItems c1wProcd).toOption.getD []

/-- A raw capture bringing one genuinely new item for the key k. -/
def c2wRaw : List Value := [.vobj [("Location", .vstr "L1")]]

/-- Its normalized items against the existing document. -/
def c2wProcd : List Value :=
  (processItems 50 7 2025 "k" c2wRaw 0 c2ExistingDoc "u" "d").toOption.getD []

/-- Those items after self-deduplication. -/
def c2wDedup : List Value :=
  (deduplicateItems c2wProcd).toOption.getD []

/-! ## Basic lemmas about the value model -/

theorem lookup_setKey_self (fs : List (String × Value)) (k : String) (v : Value) :
    lookupField (setKey fs k v) k = some v := by
  induction fs with
  | nil => simp [setKey, lookupField]
  | cons p rest ih =>
      obtain ⟨k', w⟩ := p
      by_cases h : k' = k
      · simp [setKey, h, lookupField]
      · simp [setKey, h, lookupField, ih]

theorem lookup_setKey_ne (fs : List (String × Value)) (k k' : String) (v : Value)
    (h : k' ≠ k) : lookupField (setKey fs k v) k' = lookupField fs k' := by
  have hks : ¬(k = k') := fun hh => h hh.symm
  induction fs with
  | nil => simp [setKey, lookupField, hks]
  | cons p rest ih =>
      obtain ⟨k0, w⟩ := p
      by_cases h0 : k0 = k
      · subst h0
        simp [setKey, lookupField, hks]
      · simp [setKey, h0, lookupField, ih]

theorem getField_setField_self (v : Value) (k : String) (w : Value)
    (hv : isVobj v = true) : getField (setField v k w) k = some w := by
  cases v <;> simp_all [isVobj, setField, getField, lookup_setKey_self]

theorem getField_setField_ne (v : Value) (k k' : String) (w : Value)
    (h : k' ≠ k) : getField (setField v k w) k' = getField v k' := by
  cases v <;> simp [setField, getField, lookup_setKey_ne _ _ _ _ h]

theorem isVobj_setField (v : Value) (k : String) (w : Value) :
    isVobj (setField v k w) = isVobj v := by
  cases v <;> simp [setField, isVobj]

/-! ## Counterexamples for the corrected claims -/

/-- Claim C1 counterexample: re-delivering the identical one-item capture
after its first persistence does not leave the persisted array unchanged;
the list processor returns the full existing array (its key set matches)
and the merge engine concatenates it again, so the OleSports array grows
from one item to two. -/
theorem C1_counterexample :
    arrLenAt (getPath2 firstDeliveryDoc "data" "OleSports") = some 1 ∧
    arrLenAt (getPath2 secondDeliveryDoc "data" "OleSports") = some 2 := by
  constructor
  · decide
  · decide

/-- Claim C2 counterexample: with a previously persisted one-item array
under the key k and an empty raw array, the claim requires the existing
array back (its key-set condition fails and the absent-key subset is
empty), but processArrayField returns the empty array, discarding the
existing item. -/
theorem C2_counterexample :
    exceptListLen (processArrayField 100 7 2025 "k" [] c2ExistingDoc "u" "d") = some 0 ∧
    c2Existing.length = 1 := by
  constructor
  · decide
  · decide

/-- Claim C3 counterexample: normalizing a raw object without an ImageUrl
field yields ImageUrl bound to the empty string, a bare string rather than
an array. -/
theorem C3_counterexample :
    excGetStr (processArrayItem 100 7 2025 (.vobj []) "OleSports" 0 .vnull
      "https://x.com/a" "x.com") "ImageUrl" = some "" ∧
    isArrAt (excField (processArrayItem 100 7 2025 (.vobj []) "OleSports" 0 .vnull
      "https://x.com/a" "x.com") "ImageUrl") = false := by
  constructor
  · decide
  · decide

/-- Claim C5 counterexample: a year-wrapping range in the supported
range format parses with both ends in the current year, so startDate
exceeds endDate. -/
theorem C5_counterexample :
    parseEventDate 2025 "Dec 30(Mon)-Jan 2(Thu)" = some ("2025-12-30", "2025-01-02") ∧
    strLe "2025-12-30" "2025-01-02" = false := by
  constructor
  · decide
  · decide

/-- Claim C6 counterexample: a captured array holding exactly one item with
a null Title bypasses the filter entirely (deduplicateItems returns arrays
of length at most one untouched), so the null-titled normalized item is
kept rather than dropped. -/
theorem C6_counterexample :
    exceptListLen c6SingletonRun = some 1 ∧ anyNullishTitle c6SingletonRun = true := by
  constructor
  · decide
  · decide

/-- Claim C7 counterexample: a payload whose task envelope is present but
whose input parameters are absent is not rejected: the delivery succeeds
(origin falls back to the unknown sentinel), against the claim that absent
input parameters surface a 400 client error. -/
theorem C7_counterexample :
    isClient400 (processWebhookData emptyStore 100 7 2025 c7Payload).2 = false ∧
    isOkRes (processWebhookData emptyStore 100 7 2025 c7Payload).2 = true := by
  constructor
  · decide
  · decide

/-! ## Confirmed concrete claims -/

/-- Claim C9: a captured list containing a null element makes item
normalization raise the Object.keys TypeError so the whole delivery fails
(service level), and a primitive element raises the in-operator TypeError;
the malformed element is not skipped. -/
theorem C9_theorem :
    errMsgSvc (processWebhookData emptyStore 100 7 2025 c9Payload).2 =
      some "Cannot convert undefined or null to object" ∧
    errMsgJs (processArrayItem 100 7 2025 .vnull "L" 0 .vnull
      "https://example.com/x" "example.com") =
      some "Cannot convert undefined or null to object" ∧
    errMsgJs (processArrayItem 100 7 2025 (.vnum 5) "L" 0 .vnull
      "https://example.com/x" "example.com") =
      some "Cannot use in operator to search for ImageUrl" := by
  refine ⟨?_, ?_, ?_⟩
  · decide
  · decide
  · decide

/-- Claim C8: domain identifier extraction maps the worked examples as the
spec states, returns the last two host labels of every url the url model
parses (the whole host below two labels), and degrades to the unknown
sentinel on unparseable, empty or sentinel input without raising. -/
theorem C8_theorem :
    extractDomainIdentifier "https://www.olemisssports.com/calendar" = "olemisssports.com" ∧
    extractDomainIdentifier "unknown" = "unknown" ∧
    extractDomainIdentifier "not a url" = "unknown" ∧
    extractDomainIdentifier "" = "unknown" ∧
    (∀ url host, url ≠ "" → url ≠ "unknown" → parseUrlHostname url = some host →
      extractDomainIdentifier url =
        (if (strSplitChar host '.').length ≥ 2 then
          joinSep "." ((strSplitChar host '.').drop ((strSplitChar host '.').length - 2))
        else host)) ∧
    (∀ url, parseUrlHostname url = none → extractDomainIdentifier url = "unknown") := by
  refine ⟨by decide, by decide, by decide, by decide, ?_, ?_⟩
  · intro url host h1 h2 hp
    simp [extractDomainIdentifier, bne_iff_ne, h1, h2, hp]
  · intro url hp
    by_cases h1 : url = ""
    · simp [extractDomainIdentifier, h1]
    · by_cases h2 : url = "unknown"
      · simp [extractDomainIdentifier, h2]
      · simp [extractDomainIdentifier, bne_iff_ne, h1, h2, hp]

/-- Claim C8 witness: the general clauses applied to a three-label host and
to an unparseable string. -/
theorem C8_witness :
    extractDomainIdentifier "https://a.b.example.org/p" = "example.org" ∧
    extractDomainIdentifier "http://x.y.z.w.dom.co/q" = "dom.co" := by
  constructor
  · have h := C8_theorem.2.2.2.2.1 "https://a.b.example.org/p" "a.b.example.org"
      (by decide) (by decide) (by decide)
    exact h.trans (by decide)
  · have h := C8_theorem.2.2.2.2.1 "http://x.y.z.w.dom.co/q" "x.y.z.w.dom.co"
      (by decide) (by decide) (by decide)
    exact h.trans (by decide)

/-- Claim C10: the generic date parser hardcodes the year 2025 for every
month-day match, ignoring any year in the input, returns non-matching
strings unchanged, and differs from parseEventDate, which uses the year it
is given and rejects the day-of-week-infixed form entirely. -/
theorem C10_theorem :
    parseDateString "MAY SAT 24" = "2025-05-24" ∧
    parseDateString "Jan 1, 2023" = "2025-01-01" ∧
    parseDateString "May 24" = "2025-05-24" ∧
    (∀ s, findFirst mdAt (jsTrim (strToUpper s)).data = none → parseDateString s = s) ∧
    parseEventDate 2024 "May 24" = some ("2024-05-24", "2024-05-24") ∧
    parseEventDate 2026 "MAY SAT 24" = none ∧
    (∀ y : Nat, parseEventDate y "May 24" =
      some (formatDate y "May" "24" none, formatDate y "May" "24" none)) := by
  refine ⟨by decide, by decide, by decide, ?_, by decide, by decide, ?_⟩
  · intro s h
    by_cases hs : s = ""
    · simp [parseDateString, hs]
    · simp [parseDateString, hs, h]
  · intro y
    rfl

/-- Claim C10 witness: the general clauses instantiated at a non-matching
string and at the year 2031. -/
theorem C10_witness :
    parseDateString "no date here" = "no date here" ∧
    parseEventDate 2031 "May 24" =
      some (formatDate 2031 "May" "24" none, formatDate 2031 "May" "24" none) := by
  constructor
  · exact C10_theorem.2.2.2.1 "no date here" (by decide)
  · exact C10_theorem.2.2.2.2.2.2 2031

/-! ## Generic reduction helpers -/

theorem ok_bind {ε α β : Type} (a : α) (f : α → Except ε β) :
    (Except.ok (ε := ε) a >>= f) = f a := rfl

theorem getPath2_eq (v : Value) (k1 k2 : String) (w : Value)
    (h : getField v k1 = some w) : getPath2 v k1 k2 = getField w k2 := by
  simp [getPath2, h]

theorem appendNewData_some (existing P : Value)
    (h : optTruthy (getField existing "data") = true) :
    appendNewData (some existing) P = mergeLoop (objEntries P) existing := by
  simp [appendNewData, h]

theorem mergeLoop_cons_arr (key : String) (exA nv : List Value)
    (rest : List (String × Value)) (m : Value) (gs : List (String × Value))
    (hm : getField m "data" = some (.vobj gs))
    (hk : lookupField gs key = some (.varr exA)) :
    mergeLoop ((key, .varr nv) :: rest) m =
      mergeLoop rest (setField m "data" (setField (.vobj gs) key (.varr (exA ++ nv)))) := by
  simp only [mergeLoop]
  rw [hm]
  simp [getField, hk]

/-! ## Claim C1 amended -/

/-- Claim C1 amended: when the dedup-key set of the re-normalized,
self-deduplicated items matches the persisted array for a list name,
processArrayField returns the full existing array, and appendNewData then
concatenates that return onto the persisted array, so the second delivery
leaves the list field doubled (existing ++ existing), not unchanged. -/
theorem C1_theorem (fuel now year : Nat) (key u d : String)
    (raw procd D : List Value) (docData : Value) (gs : List (String × Value))
    (ex : List Value)
    (hdoc : getField docData "data" = some (.vobj gs))
    (hex : lookupField gs key = some (.varr ex))
    (hmap : processItems fuel now year key raw 0 docData u d = .ok procd)
    (hD : deduplicateItems procd = .ok D)
    (hne : D.isEmpty = false)
    (heq : areArraysEquivalent D ex = true) :
    processArrayField (fuel + 1) now year key raw docData u d = .ok ex ∧
    getPath2 (appendNewData (some docData) (.vobj [(key, .varr ex)])) "data" key =
      some (.varr (ex ++ ex)) := by
  have h1 : getPath2 docData "data" key = some (.varr ex) := by
    rw [getPath2_eq _ _ _ _ hdoc]
    simp [getField, hex]
  have hv : isVobj docData = true := by
    cases docData <;> simp_all [getField, isVobj]
  constructor
  · simp [processArrayField, h1, hmap, hD, ok_bind, hne, heq]
  · rw [appendNewData_some _ _ (by simp [optTruthy, hdoc, truthy])]
    simp only [objEntries]
    rw [mergeLoop_cons_arr key ex ex [] docData gs hdoc hex]
    rw [mergeLoop]
    rw [getPath2_eq _ _ _ _ (getField_setField_self _ _ _ hv)]
    exact getField_setField_self (Value.vobj gs) key (Value.varr (ex ++ ex)) (by simp [isVobj])

/-! ## Date-format lemmas -/

theorem lexLe_append (p : List Char) : ∀ s t, lexLe (p ++ s) (p ++ t) = lexLe s t := by
  induction p with
  | nil => intro s t; simp
  | cons c r ih => intro s t; simp [lexLe, ih]

theorem isYYYYMMDD_fmt (ys mm dd : String) (hy : isYear4 ys = true)
    (hmm : mm.data.all Char.isDigit = true) (hmml : mm.data.length = 2)
    (hdd : dd.data.all Char.isDigit = true) (hddl : dd.data.length = 2) :
    isYYYYMMDD (ys ++ "-" ++ mm ++ "-" ++ dd) = true := by
  unfold isYear4 at hy
  rw [Bool.and_eq_true, beq_iff_eq] at hy
  obtain ⟨hyl, hyd⟩ := hy
  have hdata : (ys ++ "-" ++ mm ++ "-" ++ dd).data =
      ys.data ++ '-' :: (mm.data ++ '-' :: dd.data) := by
    simp [String.data_append]
  match hys : ys.data, hyl with
  | [a, b, c, e], _ =>
    match hmms : mm.data, hmml with
    | [m1, m2], _ =>
      match hdds : dd.data, hddl with
      | [d1, d2], _ =>
        rw [hys, hmms, hdds] at hdata
        rw [hys] at hyd
        rw [hmms] at hmm
        rw [hdds] at hdd
        simp at hyd hmm hdd
        unfold isYYYYMMDD
        rw [hdata]
        simp [hyd, hmm, hdd]

/-! ## Claim C5 amended -/

/-- Claim C5 amended: the supported formats parse into strict YYYY-MM-DD
pairs (4-digit current year), with the end equal to the start unless a
range is detected, and ascending ranges come out ordered; an unparseable
string is kept verbatim in Date without touching EventEndDate; and a Date
already in YYYY-MM-DD form passes through the normalization step of the
Item Normalizer unchanged.  (Ordering fails on year-wrapping ranges - see
the counterexample.) -/
theorem C5_theorem (y : Nat) (hy : isYear4 (toString y) = true) :
    (parseEventDate y "Jun 11(Wed)-Jun 13(Fri)" =
        some (formatDate y "Jun" "11" none, formatDate y "Jun" "13" none) ∧
      isYYYYMMDD (formatDate y "Jun" "11" none) = true ∧
      isYYYYMMDD (formatDate y "Jun" "13" none) = true ∧
      strLe (formatDate y "Jun" "11" none) (formatDate y "Jun" "13" none) = true) ∧
    (parseEventDate y "Jan 1-3, 2023" = some ("2023-01-01", "2023-01-03") ∧
      isYYYYMMDD "2023-01-01" = true ∧ isYYYYMMDD "2023-01-03" = true ∧
      strLe "2023-01-01" "2023-01-03" = true) ∧
    (parseEventDate y "Jan 1" =
        some (formatDate y "Jan" "1" none, formatDate y "Jan" "1" none) ∧
      isYYYYMMDD (formatDate y "Jan" "1" none) = true) ∧
    (∀ s label, parseEventDate y s = none →
      updateDateFields y s label = setField label "Date" (.vstr s)) ∧
    (∀ label d, getField label "Date" = some (.vstr d) → isYYYYMMDD d = true →
      normalizeDateField label = label) := by
  refine ⟨⟨rfl, ?_, ?_, ?_⟩, ⟨rfl, by decide, by decide, by decide⟩, ⟨rfl, ?_⟩, ?_, ?_⟩
  · exact isYYYYMMDD_fmt (toString y) "06" "11" hy (by decide) (by decide)
      (by decide) (by decide)
  · exact isYYYYMMDD_fmt (toString y) "06" "13" hy (by decide) (by decide)
      (by decide) (by decide)
  · show strLe (toString y ++ "-" ++ "06" ++ "-" ++ "11")
      (toString y ++ "-" ++ "06" ++ "-" ++ "13") = true
    unfold strLe
    simp only [String.data_append, List.append_assoc]
    rw [lexLe_append]
    decide
  · exact isYYYYMMDD_fmt (toString y) "01" "01" hy (by decide) (by decide)
      (by decide) (by decide)
  · intro s label h
    simp [updateDateFields, h]
  · intro label d hf hd
    simp [normalizeDateField, hf, hd]

/-- Claim C5 witness: the amended claim at the year 2025, with the format
and ordering facts evaluated. -/
theorem C5_witness :
    parseEventDate 2025 "Jun 11(Wed)-Jun 13(Fri)" =
      some (formatDate 2025 "Jun" "11" none, formatDate 2025 "Jun" "13" none) ∧
    isYYYYMMDD (formatDate 2025 "Jun" "11" none) = true ∧
    updateDateFields 2025 "opaque text" (.vobj []) =
      setField (.vobj []) "Date" (.vstr "opaque text") ∧
    normalizeDateField (.vobj [("Date", .vstr "2025-06-11")]) =
      .vobj [("Date", .vstr "2025-06-11")] := by
  refine ⟨(C5_theorem 2025 (by decide)).1.1, (C5_theorem 2025 (by decide)).1.2.1, ?_, ?_⟩
  · exact (C5_theorem 2025 (by decide)).2.2.2.1 "opaque text" (.vobj []) (by decide)
  · exact (C5_theorem 2025 (by decide)).2.2.2.2 (.vobj [("Date", .vstr "2025-06-11")])
      "2025-06-11" rfl (by decide)

/-! ## Lemmas on dedup keys and equivalence -/

theorem contains_iff_mem (l : List String) (a : String) :
    l.contains a = true ↔ a ∈ l := by
  simp

theorem dedupByKey_nodup_aux (xs : List Value) : ∀ (seen : List String),
    ((dedupByKey xs seen).map createUniqueKeyForItem).Nodup ∧
    ∀ it ∈ dedupByKey xs seen, createUniqueKeyForItem it ∉ seen := by
  induction xs with
  | nil => intro seen; simp [dedupByKey]
  | cons x rest ih =>
      intro seen
      by_cases h : createUniqueKeyForItem x ∈ seen
      · have hc : seen.contains (createUniqueKeyForItem x) = true := by simpa using h
        rw [show dedupByKey (x :: rest) seen = dedupByKey rest seen from by
          simp only [dedupByKey]; rw [hc]; simp]
        exact ih seen
      · have hc : seen.contains (createUniqueKeyForItem x) = false := by simpa using h
        obtain ⟨ihN, ihS⟩ := ih (createUniqueKeyForItem x :: seen)
        rw [show dedupByKey (x :: rest) seen =
            x :: dedupByKey rest (createUniqueKeyForItem x :: seen) from by
          simp only [dedupByKey]; rw [hc]; simp]
        constructor
        · rw [List.map_cons, List.nodup_cons]
          refine ⟨?_, ihN⟩
          intro hkin
          obtain ⟨it, hit, hkeq⟩ := List.mem_map.mp hkin
          apply ihS it hit
          rw [hkeq]
          exact List.mem_cons_self _ _
        · intro it hit
          rcases List.mem_cons.mp hit with rfl | hit
          · exact h
          · exact fun hks => (ihS it hit) (List.mem_cons_of_mem _ hks)

theorem deduplicateItems_nodup (items out : List Value)
    (h : deduplicateItems items = .ok out) :
    (out.map createUniqueKeyForItem).Nodup := by
  unfold deduplicateItems at h
  by_cases hlen : items.length ≤ 1
  · rw [if_pos hlen] at h
    cases h
    match items, hlen with
    | [], _ => simp
    | [x], _ => simp
  · rw [if_neg hlen] at h
    cases hf : filterKeep items with
    | error e =>
        rw [hf] at h
        exact Except.noConfusion h
    | ok filtered =>
        rw [hf, ok_bind] at h
        by_cases he : filtered.isEmpty
        · rw [if_pos he] at h; cases h; simp
        · rw [if_neg he] at h; cases h
          have hn := (dedupByKey_nodup_aux filtered []).1
          exact hn

theorem areEquiv_iff_claim (D ex : List Value)
    (hDn : (D.map createUniqueKeyForItem).Nodup)
    (hEn : (ex.map createUniqueKeyForItem).Nodup) :
    areArraysEquivalent D ex = true ↔ keySetEqClaim D ex := by
  unfold areArraysEquivalent keySetEqClaim
  rw [Bool.and_eq_true, beq_iff_eq, List.all_eq_true]
  constructor
  · rintro ⟨hlen, hall⟩
    have hsub : (ex.map createUniqueKeyForItem) ⊆ (D.map createUniqueKeyForItem) := by
      intro k hk
      obtain ⟨e, he, rfl⟩ := List.mem_map.mp hk
      exact (contains_iff_mem _ _).mp (hall e he)
    have hset : (ex.map createUniqueKeyForItem).toFinset =
        (D.map createUniqueKeyForItem).toFinset := by
      apply Finset.eq_of_subset_of_card_le
      · exact fun k hk => List.mem_toFinset.mpr (hsub (List.mem_toFinset.mp hk))
      · rw [List.toFinset_card_of_nodup hDn, List.toFinset_card_of_nodup hEn]
        simp [hlen]
    constructor
    · rw [List.dedup_eq_self.mpr hDn, List.dedup_eq_self.mpr hEn]
      simp [hlen]
    · intro k hk
      have hk2 : k ∈ (D.map createUniqueKeyForItem).toFinset := List.mem_toFinset.mpr hk
      rw [← hset] at hk2
      exact List.mem_toFinset.mp hk2
  · rintro ⟨hlen, hsub⟩
    have hcard : (D.map createUniqueKeyForItem).length =
        (ex.map createUniqueKeyForItem).length := by
      rw [List.dedup_eq_self.mpr hDn, List.dedup_eq_self.mpr hEn] at hlen
      exact hlen
    have hset : (D.map createUniqueKeyForItem).toFinset =
        (ex.map createUniqueKeyForItem).toFinset := by
      apply Finset.eq_of_subset_of_card_le
      · exact fun k hk => List.mem_toFinset.mpr (hsub k (List.mem_toFinset.mp hk))
      · rw [List.toFinset_card_of_nodup hDn, List.toFinset_card_of_nodup hEn]
        simp [hcard]
    refine ⟨by simpa using hcard, ?_⟩
    intro e he
    apply (contains_iff_mem _ _).mpr
    have hk2 : createUniqueKeyForItem e ∈ (ex.map createUniqueKeyForItem).toFinset :=
      List.mem_toFinset.mpr (List.mem_map.mpr ⟨e, he, rfl⟩)
    rw [← hset] at hk2
    exact List.mem_toFinset.mp hk2

theorem dedupAgainst_eq_filter (D ex : List Value) (hne : D.isEmpty = false) :
    deduplicateAgainstExisting D ex =
      D.filter (fun it =>
        !((ex.map createUniqueKeyForItem).contains (createUniqueKeyForItem it))) := by
  unfold deduplicateAgainstExisting
  cases ex with
  | nil =>
      rw [if_pos (by simp [hne])]
      simp
  | cons e t =>
      rw [if_neg (by simp [hne])]

/-! ## Claim C2 amended -/

/-- Claim C2 amended: for a list name with a previously persisted array
whose dedup keys are pairwise distinct, and a nonempty deduplicated new
item list: if the dedup-key sets are set-equal (same cardinality, every
new key among the old), processArrayField returns the existing array
unchanged; otherwise it returns the existing array followed by exactly the
deduplicated new items whose key is absent from the existing key set,
never removing or reordering existing items. -/
theorem C2_theorem (fuel now year : Nat) (key u d : String)
    (raw procd D : List Value) (docData : Value) (gs : List (String × Value))
    (ex : List Value)
    (hdoc : getField docData "data" = some (.vobj gs))
    (hex : lookupField gs key = some (.varr ex))
    (hmap : processItems fuel now year key raw 0 docData u d = .ok procd)
    (hD : deduplicateItems procd = .ok D)
    (hne : D.isEmpty = false)
    (hEn : (ex.map createUniqueKeyForItem).Nodup) :
    (keySetEqClaim D ex →
      processArrayField (fuel + 1) now year key raw docData u d = .ok ex) ∧
    (¬ keySetEqClaim D ex →
      processArrayField (fuel + 1) now year key raw docData u d =
        .ok (ex ++ D.filter (fun it =>
          !((ex.map createUniqueKeyForItem).contains (createUniqueKeyForItem it))))) := by
  have hDn := deduplicateItems_nodup procd D hD
  have hiff := areEquiv_iff_claim D ex hDn hEn
  have h1 : getPath2 docData "data" key = some (.varr ex) := by
    rw [getPath2_eq _ _ _ _ hdoc]
    simp [getField, hex]
  constructor
  · intro hk
    have heq : areArraysEquivalent D ex = true := hiff.mpr hk
    simp [processArrayField, h1, hmap, hD, ok_bind, hne, heq]
  · intro hk
    have heq : areArraysEquivalent D ex = false := by
      cases hb : areArraysEquivalent D ex
      · rfl
      · exact absurd (hiff.mp hb) hk
    by_cases hf : (D.filter (fun it =>
        !((ex.map createUniqueKeyForItem).contains (createUniqueKeyForItem it)))).isEmpty
    · have hfe : D.filter (fun it =>
          !((ex.map createUniqueKeyForItem).contains (createUniqueKeyForItem it))) = [] :=
        List.isEmpty_iff.mp hf
      simp [processArrayField, h1, hmap, hD, ok_bind, hne, heq,
        dedupAgainst_eq_filter D ex hne, hf, hfe]
    · simp [processArrayField, h1, hmap, hD, ok_bind, hne, heq,
        dedupAgainst_eq_filter D ex hne, hf]

/-- Claim C2 witness: the amended claim's append branch at a concrete
existing array and a genuinely new item. -/
theorem C2_witness :
    processArrayField 51 7 2025 "k" c2wRaw c2ExistingDoc "u" "d" =
      .ok (c2Existing ++ c2wDedup.filter (fun it =>
        !((c2Existing.map createUniqueKeyForItem).contains
          (createUniqueKeyForItem it)))) := by
  exact (C2_theorem 50 7 2025 "k" "u" "d" c2wRaw c2wProcd c2wDedup c2ExistingDoc
    [("k", .varr c2Existing)] c2Existing rfl rfl rfl rfl (by decide) (by decide)).2
    (by decide)

/-- Claim C1 witness: the amended claim at the concrete Tucson re-delivery
scenario. -/
theorem C1_witness :
    processArrayField 100 8 2025 "OleSports" [rawTucsonItem] firstDeliveryDoc
      oleUrl oleDocName = .ok firstOleArr ∧
    getPath2 (appendNewData (some firstDeliveryDoc)
        (.vobj [("OleSports", .varr firstOleArr)])) "data" "OleSports" =
      some (.varr (firstOleArr ++ firstOleArr)) := by
  exact C1_theorem 99 8 2025 "OleSports" oleUrl oleDocName [rawTucsonItem]
    c1wProcd c1wDedup firstDeliveryDoc firstDataFields firstOleArr
    (by rfl) (by rfl) (by rfl) (by rfl) (by rfl) (by rfl)

/-- Every item the Title filter keeps passed the check with true. -/
theorem filterKeep_mem : ∀ (items filtered : List Value),
    filterKeep items = .ok filtered →
    ∀ it ∈ filtered, titleFilterCheck it = .ok true := by
  intro items
  induction items with
  | nil =>
      intro filtered h it hit
      simp [filterKeep] at h
      subst h
      simp at hit
  | cons x rest ih =>
      intro filtered h it hit
      unfold filterKeep at h
      cases hc : titleFilterCheck x with
      | error e =>
          rw [hc] at h
          exact Except.noConfusion h
      | ok keep =>
          rw [hc, ok_bind] at h
          cases ht : filterKeep rest with
          | error e =>
              rw [ht] at h
              exact Except.noConfusion h
          | ok t =>
              rw [ht, ok_bind] at h
              cases keep with
              | true =>
                  simp at h
                  subst h
                  rcases List.mem_cons.mp hit with rfl | hmem
                  · exact hc
                  · exact ih t ht it hmem
              | false =>
                  simp at h
                  subst h
                  exact ih _ ht it hit

/-- Passing the Title check with true means the Title is not nullish. -/
theorem titleCheck_not_nullish (it : Value) (h : titleFilterCheck it = .ok true) :
    titleIsNullish it = false := by
  cases it with
  | vnull => exact Except.noConfusion h
  | vobj fs =>
      simp only [titleFilterCheck, titleIsNullish, getField] at h ⊢
      rcases hl : lookupField fs "Title" with _ | v
      · rw [hl] at h
        exact Bool.noConfusion (Except.ok.inj h)
      · rw [hl] at h
        cases v <;> simp_all
  | vbool b => simp [titleFilterCheck, getField] at h
  | vnum n => simp [titleFilterCheck, getField] at h
  | vstr s => simp [titleFilterCheck, getField] at h
  | varr xs => simp [titleFilterCheck, getField] at h
  | vts t => simp [titleFilterCheck, getField] at h

/-- The uniqueMap pass only ever keeps items of its input list. -/
theorem dedupByKey_subset (xs : List Value) : ∀ seen, dedupByKey xs seen ⊆ xs := by
  induction xs with
  | nil =>
      intro seen
      simp [dedupByKey]
  | cons x rest ih =>
      intro seen
      by_cases hc : seen.contains (createUniqueKeyForItem x) = true
      · rw [show dedupByKey (x :: rest) seen = dedupByKey rest seen from by
          simp only [dedupByKey]; rw [hc]; simp]
        exact fun a ha => List.mem_cons_of_mem _ (ih seen ha)
      · have hcf : seen.contains (createUniqueKeyForItem x) = false :=
          Bool.eq_false_iff.mpr hc
        rw [show dedupByKey (x :: rest) seen =
            x :: dedupByKey rest (createUniqueKeyForItem x :: seen) from by
          simp only [dedupByKey]; rw [hcf]; simp]
        intro a ha
        rcases List.mem_cons.mp ha with rfl | ha
        · exact List.mem_cons_self _ _
        · exact List.mem_cons_of_mem _ (ih _ ha)

/-- Claim C6: items with null or undefined Title are dropped before
deduplication only when the processed array has at least two elements
(deduplicateItems returns shorter arrays untouched); and in the concrete
first-delivery scenario the two-item capture persists exactly one item
under OleSports, with uid set, Title OleSports and ImageUrl present, and
the delivery succeeds. -/
theorem C6_theorem :
    (∀ (items out : List Value), 2 ≤ items.length →
      deduplicateItems items = .ok out →
      ∀ it ∈ out, titleIsNullish it = false) ∧
    arrLenAt (getPath2 c6Write "data" "OleSports") = some 1 ∧
    (getField c6Item "uid").isSome = true ∧
    getStrField c6Item "Title" = some "OleSports" ∧
    hasField c6Item "ImageUrl" = true ∧
    isOkRes (processWebhookData emptyStore 100 7 2025 c6Payload).2 = true := by
  refine ⟨?_, by decide, by decide, by decide, by decide, by decide⟩
  intro items out hlen h it hit
  unfold deduplicateItems at h
  rw [if_neg (by omega)] at h
  cases hf : filterKeep items with
  | error e =>
      rw [hf] at h
      exact Except.noConfusion h
  | ok filtered =>
      rw [hf, ok_bind] at h
      by_cases he : filtered.isEmpty
      · rw [if_pos he] at h
        cases h
        simp at hit
      · rw [if_neg he] at h
        cases h
        have hmem : it ∈ filtered := dedupByKey_subset filtered [] hit
        exact titleCheck_not_nullish it (filterKeep_mem items filtered hf it hmem)

/-- Claim C6 witness: the universal clause applied to a concrete two-item
list whose first item has a null Title; the surviving item has one. -/
theorem C6_witness :
    titleIsNullish (.vobj [("Title", .vstr "T"), ("Location", .vstr "X")]) = false := by
  have h := C6_theorem.1 c6wItems c6wOut (by decide) rfl
  apply h
  rw [show c6wOut = [Value.vobj [("Title", .vstr "T"), ("Location", .vstr "X")]]
    from rfl]
  exact List.mem_singleton.mpr rfl

/-- A failing texts step never fails with a client-class error. -/
theorem storeCapturedTexts_not_client (st : Store) (fuel now year : Nat)
    (docName originUrl : String) (texts : Value) (ops : List StoreOp) (e : SvcErr)
    (h : storeCapturedTexts st fuel now year docName originUrl texts =
      (ops, .error e)) :
    isClientErr e = false := by
  have h2 := congrArg Prod.snd h
  cases hr : st.readRes "captured_texts" docName with
  | error u =>
      have hs : (storeCapturedTexts st fuel now year docName originUrl texts).2 =
          .error .store := by
        simp [storeCapturedTexts, hr]
      rw [hs] at h2
      injection h2 with h3
      subst h3
      rfl
  | ok snap =>
      cases snap with
      | none =>
          cases hc : cleanDataFields fuel now year (convertToFirestoreFormat texts)
              .vnull originUrl docName with
          | error je =>
              have hs : (storeCapturedTexts st fuel now year docName originUrl texts).2 =
                  .error (.js je) := by
                simp [storeCapturedTexts, hr, hc]
              rw [hs] at h2
              injection h2 with h3
              subst h3
              rfl
          | ok pd =>
              have hs : (storeCapturedTexts st fuel now year docName originUrl texts).2 =
                  .ok (.write "captured_texts" docName (.vobj [("data", pd)])) := by
                simp [storeCapturedTexts, hr, hc]
              rw [hs] at h2
              exact Except.noConfusion h2
      | some d =>
          cases hc : cleanDataFields fuel now year (convertToFirestoreFormat texts)
              d originUrl docName with
          | error je =>
              have hs : (storeCapturedTexts st fuel now year docName originUrl texts).2 =
                  .error (.js je) := by
                simp [storeCapturedTexts, hr, hc]
              rw [hs] at h2
              injection h2 with h3
              subst h3
              rfl
          | ok pd =>
              have hs : (storeCapturedTexts st fuel now year docName originUrl texts).2 =
                  .ok (.write "captured_texts" docName (appendNewData (some d) pd)) := by
                simp [storeCapturedTexts, hr, hc]
              rw [hs] at h2
              exact Except.noConfusion h2

/-- A failing screenshots step never fails with a client-class error. -/
theorem storeCapturedScreenshots_not_client (st : Store) (fuel now year : Nat)
    (docName originUrl : String) (shots : Value) (ops : List StoreOp) (e : SvcErr)
    (h : storeCapturedScreenshots st fuel now year docName originUrl shots =
      (ops, .error e)) :
    isClientErr e = false := by
  have h2 := congrArg Prod.snd h
  cases hr : st.readRes "captured_screenshots" docName with
  | error u =>
      have hs : (storeCapturedScreenshots st fuel now year docName originUrl shots).2 =
          .error .store := by
        simp [storeCapturedScreenshots, hr]
      rw [hs] at h2
      injection h2 with h3
      subst h3
      rfl
  | ok snap =>
      cases snap with
      | none =>
          cases hc : cleanDataFields fuel now year (convertToFirestoreFormat shots)
              .vnull originUrl docName with
          | error je =>
              have hs : (storeCapturedScreenshots st fuel now year docName
                  originUrl shots).2 = .error (.js je) := by
                simp [storeCapturedScreenshots, hr, hc]
              rw [hs] at h2
              injection h2 with h3
              subst h3
              rfl
          | ok pd =>
              have hs : (storeCapturedScreenshots st fuel now year docName
                  originUrl shots).2 =
                  .ok (.write "captured_screenshots" docName
                    (.vobj [("data", pd), ("timestamp", .vts (toString now)),
                            ("originUrl", .vstr originUrl)])) := by
                simp [storeCapturedScreenshots, hr, hc]
              rw [hs] at h2
              exact Except.noConfusion h2
      | some d =>
          cases hc : cleanDataFields fuel now year (convertToFirestoreFormat shots)
              d originUrl docName with
          | error je =>
              have hs : (storeCapturedScreenshots st fuel now year docName
                  originUrl shots).2 = .error (.js je) := by
                simp [storeCapturedScreenshots, hr, hc]
              rw [hs] at h2
              injection h2 with h3
              subst h3
              rfl
          | ok pd =>
              have hs : (storeCapturedScreenshots st fuel now year docName
                  originUrl shots).2 =
                  .ok (.write "captured_screenshots" docName
                    (appendNewData (some d) pd)) := by
                simp [storeCapturedScreenshots, hr, hc]
              rw [hs] at h2
              exact Except.noConfusion h2

/-- A failing lists step never fails with a client-class error. -/
theorem storeCapturedLists_not_client (st : Store) (fuel now year : Nat)
    (docName originUrl : String) (lists : Value) (ops : List StoreOp) (e : SvcErr)
    (h : storeCapturedLists st fuel now year docName originUrl lists =
      (ops, .error e)) :
    isClientErr e = false := by
  have h2 := congrArg Prod.snd h
  cases hr : st.readRes "captured_lists" docName with
  | error u =>
      have hs : (storeCapturedLists st fuel now year docName originUrl lists).2 =
          .error .store := by
        simp [storeCapturedLists, hr]
      rw [hs] at h2
      injection h2 with h3
      subst h3
      rfl
  | ok snap =>
      cases snap with
      | none =>
          cases hc : cleanDataFields fuel now year (convertToFirestoreFormat lists)
              .vnull originUrl docName with
          | error je =>
              have hs : (storeCapturedLists st fuel now year docName originUrl lists).2 =
                  .error (.js je) := by
                simp [storeCapturedLists, hr, hc]
              rw [hs] at h2
              injection h2 with h3
              subst h3
              rfl
          | ok pd =>
              have hs : (storeCapturedLists st fuel now year docName originUrl lists).2 =
                  .ok (.write "captured_lists" docName (.vobj [("data", pd)])) := by
                simp [storeCapturedLists, hr, hc]
              rw [hs] at h2
              exact Except.noConfusion h2
      | some d =>
          cases hc : cleanDataFields fuel now year (convertToFirestoreFormat lists)
              d originUrl docName with
          | error je =>
              have hs : (storeCapturedLists st fuel now year docName originUrl lists).2 =
                  .error (.js je) := by
                simp [storeCapturedLists, hr, hc]
              rw [hs] at h2
              injection h2 with h3
              subst h3
              rfl
          | ok pd =>
              have hs : (storeCapturedLists st fuel now year docName originUrl lists).2 =
                  .ok (.write "captured_lists" docName (appendNewData (some d) pd)) := by
                simp [storeCapturedLists, hr, hc]
              rw [hs] at h2
              exact Except.noConfusion h2

/-- If no listed step carries a client-class error, neither does the
collected run. -/
theorem collectSteps_not_client :
    ∀ (steps : List (Option (List StoreOp × Except SvcErr StoreOp)))
      (reads writes : List StoreOp),
      (∀ s ∈ steps, ∀ (ops : List StoreOp) (e : SvcErr),
        s = some (ops, .error e) → isClientErr e = false) →
      ∀ e : SvcErr, (collectSteps steps reads writes).2 = .error e →
      isClientErr e = false := by
  intro steps
  induction steps with
  | nil =>
      intro reads writes hs e he
      exact Except.noConfusion he
  | cons s rest ih =>
      intro reads writes hs e he
      cases s with
      | none =>
          rw [show collectSteps (none :: rest) reads writes =
            collectSteps rest reads writes from rfl] at he
          exact ih reads writes (fun t ht => hs t (List.mem_cons_of_mem _ ht)) e he
      | some p =>
          obtain ⟨ops, r⟩ := p
          cases r with
          | error e2 =>
              rw [show collectSteps (some (ops, .error e2) :: rest) reads writes =
                (reads ++ ops, .error e2) from rfl] at he
              have h3 : e2 = e := Except.error.inj he
              subst h3
              exact hs (some (ops, .error e2)) (List.mem_cons_self _ _) ops e2 rfl
          | ok w =>
              rw [show collectSteps (some (ops, .ok w) :: rest) reads writes =
                collectSteps rest (reads ++ ops) (writes ++ [w]) from rfl] at he
              exact ih _ _ (fun t ht => hs t (List.mem_cons_of_mem _ ht)) e he

/-- The post-validation body never answers with the structured client
error, whatever the store, fuel, clock or task. -/
theorem processTask_not_client (st : Store) (fuel now year : Nat) (task : Value) :
    isClient400 (processTask st fuel now year task).2 = false := by
  simp only [processTask]
  split
  next reads e heq =>
    have he : isClientErr e = false := by
      have h2 := congrArg Prod.snd heq
      refine collectSteps_not_client _ _ _ ?_ e h2
      · intro s hs'
        simp only [List.mem_cons, List.not_mem_nil, or_false] at hs'
        rcases hs' with rfl | rfl | rfl
        · intro ops e' hse
          split at hse
          · injection hse with hse
            exact storeCapturedTexts_not_client _ _ _ _ _ _ _ _ _ hse
          · exact Option.noConfusion hse
        · intro ops e' hse
          split at hse
          · injection hse with hse
            exact storeCapturedScreenshots_not_client _ _ _ _ _ _ _ _ _ hse
          · exact Option.noConfusion hse
        · intro ops e' hse
          split at hse
          · injection hse with hse
            exact storeCapturedLists_not_client _ _ _ _ _ _ _ _ _ hse
          · exact Option.noConfusion hse
    cases e with
    | client s m d => simp [isClientErr] at he
    | js e2 => rfl
    | store => rfl
  next reads writes heq =>
    cases hco : st.commitOk <;> simp [hco, isClient400]

/-- Claim C7: only a missing or falsy task envelope is rejected with the
structured 400 client error, with an empty operation trace, identically
for every store; with a truthy task the answer is never the structured
client error; absent input parameters are not an error - the origin url
falls back to unknown and the derived document name is the unknown
sentinel, as the read trace shows, and store read failures surface as the
server-class store error; a task with no capture sections commits at once
and succeeds. -/
theorem C7_theorem :
    (∀ (st : Store) (fuel now year : Nat) (payload : Value),
      (truthy payload && optTruthy (getField payload "task")) = false →
      processWebhookData st fuel now year payload =
        ([], .error (.client 400 "Invalid webhook data structure"
          "The webhook payload is missing required task information"))) ∧
    (∀ (st : Store) (fuel now year : Nat) (payload : Value),
      (truthy payload && optTruthy (getField payload "task")) = true →
      isClient400 (processWebhookData st fuel now year payload).2 = false) ∧
    (∀ fuel now year : Nat,
      processWebhookData failStore fuel now year c7bPayload =
        ([.read "captured_texts" "unknown"], .error .store)) ∧
    (∀ fuel now year : Nat,
      processWebhookData emptyStore fuel now year c7Payload =
        ([.commit], .ok (successEnvelope now))) := by
  refine ⟨?_, ?_, ?_, ?_⟩
  · intro st fuel now year payload h
    simp [processWebhookData, h]
  · intro st fuel now year payload h
    rw [show processWebhookData st fuel now year payload =
      processTask st fuel now year ((getField payload "task").getD .vnull) from by
        simp [processWebhookData, h]]
    exact processTask_not_client st fuel now year _
  · intro fuel now year
    rfl
  · intro fuel now year
    rfl

/-- Claim C7 witness: the null payload is rejected with the exact 400
envelope over the empty store, and a present task with every read failing
is not answered with the client error. -/
theorem C7_witness :
    processWebhookData emptyStore 3 7 2025 .vnull =
      ([], .error (.client 400 "Invalid webhook data structure"
        "The webhook payload is missing required task information")) ∧
    isClient400 (processWebhookData failStore 3 7 2025 c7bPayload).2 = false := by
  exact ⟨C7_theorem.1 emptyStore 3 7 2025 .vnull (by decide),
         C7_theorem.2.1 failStore 3 7 2025 c7bPayload (by decide)⟩

/-- The claim-side first-occurrence pass ignores its fuel once the fuel
covers the list length. -/
theorem specFirstOccurAux_fuel :
    ∀ (fuel : Nat) (xs : List Value) (fuel' : Nat),
      xs.length ≤ fuel → xs.length ≤ fuel' →
      specFirstOccurAux fuel xs = specFirstOccurAux fuel' xs := by
  intro fuel
  induction fuel with
  | zero =>
      intro xs fuel' h h'
      have hx : xs = [] := List.length_eq_zero.mp (Nat.le_zero.mp h)
      subst hx
      cases fuel' <;> rfl
  | succ f ih =>
      intro xs fuel' h h'
      cases xs with
      | nil => cases fuel' <;> rfl
      | cons x rest =>
          cases fuel' with
          | zero => simp at h'
          | succ g =>
              simp only [specFirstOccurAux]
              congr 1
              exact ih _ g
                (le_trans (List.length_filter_le _ _) (Nat.succ_le_succ_iff.mp h))
                (le_trans (List.length_filter_le _ _) (Nat.succ_le_succ_iff.mp h'))

/-- The uniqueMap loop with a seen set equals the claim-side
first-occurrence pass on the items whose key is not yet seen. -/
theorem dedupByKey_eq_aux :
    ∀ (xs : List Value) (seen : List String),
      dedupByKey xs seen =
        specFirstOccurAux xs.length
          (xs.filter (fun y => !(seen.contains (createUniqueKeyForItem y)))) := by
  intro xs
  induction xs with
  | nil => intro seen; rfl
  | cons x rest ih =>
      intro seen
      by_cases hc : seen.contains (createUniqueKeyForItem x) = true
      · rw [show dedupByKey (x :: rest) seen = dedupByKey rest seen from by
          simp only [dedupByKey]; rw [hc]; simp]
        rw [show (x :: rest).filter
              (fun y => !(seen.contains (createUniqueKeyForItem y))) =
            rest.filter (fun y => !(seen.contains (createUniqueKeyForItem y))) from by
          simp [List.filter_cons]
          exact (contains_iff_mem _ _).mp hc]
        rw [ih seen]
        exact specFirstOccurAux_fuel _ _ _ (List.length_filter_le _ _)
          (le_trans (List.length_filter_le _ _) (Nat.le_succ _))
      · have hcf : seen.contains (createUniqueKeyForItem x) = false :=
          Bool.eq_false_iff.mpr hc
        rw [show dedupByKey (x :: rest) seen =
            x :: dedupByKey rest (createUniqueKeyForItem x :: seen) from by
          simp only [dedupByKey]; rw [hcf]; simp]
        rw [show (x :: rest).filter
              (fun y => !(seen.contains (createUniqueKeyForItem y))) =
            x :: rest.filter (fun y => !(seen.contains (createUniqueKeyForItem y))) from by
          simp [List.filter_cons]
          exact fun hm => hc ((contains_iff_mem _ _).mpr hm)]
        rw [show specFirstOccurAux (x :: rest).length
              (x :: rest.filter (fun y => !(seen.contains (createUniqueKeyForItem y)))) =
            x :: specFirstOccurAux rest.length
              ((rest.filter (fun y => !(seen.contains (createUniqueKeyForItem y)))).filter
                (fun y => createUniqueKeyForItem y != createUniqueKeyForItem x)) from rfl]
        congr 1
        rw [ih (createUniqueKeyForItem x :: seen)]
        congr 1
        rw [List.filter_filter]
        apply List.filter_congr
        intro y _
        have hbeq : ∀ a b : String, (a != b) = !decide (a = b) := by
          intro a b
          by_cases hab : a = b
          · subst hab; simp
          · simp [hab]
        simp [List.contains_cons, Bool.not_or, Bool.and_comm, hbeq]

/-- Claim C4: the dedup key of an object item is exactly the claim-side
key (Title with EventDate, Location, Sports for the recognized source, or
with Location, Date, Time otherwise, restricted to truthily present
fields, falling back to all non-uid scalar fields); within an array the
uniqueMap pass keeps exactly the first occurrence of each key; and against
the store the surviving new items are exactly those whose key is absent
from the existing key set. -/
theorem C4_theorem :
    (∀ fields : List (String × Value),
      createUniqueKeyForItem (.vobj fields) = dedupKeySpec (.vobj fields)) ∧
    (∀ xs : List Value, dedupByKey xs [] = specFirstOccur xs) ∧
    (∀ D ex : List Value, D.isEmpty = false →
      deduplicateAgainstExisting D ex =
        D.filter (fun it =>
          !((ex.map createUniqueKeyForItem).contains (createUniqueKeyForItem it)))) := by
  refine ⟨fun fields => rfl, ?_, dedupAgainst_eq_filter⟩
  intro xs
  rw [dedupByKey_eq_aux xs []]
  unfold specFirstOccur
  congr 1
  simp

/-- Claim C4 witness: the store-facing clause at a concrete singleton
against an empty existing array. -/
theorem C4_witness :
    deduplicateAgainstExisting [Value.vobj [("Title", .vstr "T")]] [] =
      [Value.vobj [("Title", .vstr "T")]] := by
  rw [C4_theorem.2.2 [Value.vobj [("Title", .vstr "T")]] [] (by decide)]
  rfl

/-- Binding a failure short-circuits. -/
theorem error_bind {ε α β : Type} (e : ε) (f : α → Except ε β) :
    ((Except.error e : Except ε α) >>= f) = Except.error e := rfl

/-- Setting one key leaves the presence of a different key unchanged. -/
theorem hasField_setField_ne (v : Value) (k k' : String) (w : Value)
    (h : k' ≠ k) : hasField (setField v k w) k' = hasField v k' := by
  unfold hasField
  rw [getField_setField_ne v k k' w h]

/-- Setting a key on an object makes it present. -/
theorem hasField_setField_self (v : Value) (k : String) (w : Value)
    (hv : isVobj v = true) : hasField (setField v k w) k = true := by
  unfold hasField
  rw [getField_setField_self v k w hv]
  rfl

/-- updateDateFields only touches the Date and EventEndDate fields. -/
theorem updateDateFields_hasField (year : Nat) (s : String) (label : Value)
    (k : String) (h1 : k ≠ "Date") (h2 : k ≠ "EventEndDate") :
    hasField (updateDateFields year s label) k = hasField label k := by
  simp only [updateDateFields]
  repeat' split
  all_goals simp [hasField_setField_ne, h1, h2]

/-- processDateInformation only touches the Date, EventEndDate and
EventDate fields. -/
theorem processDateInformation_hasField (year : Nat) (dsrc : Option String)
    (g : GameDetails) (label : Value) (k : String)
    (h1 : k ≠ "Date") (h2 : k ≠ "EventEndDate") (h3 : k ≠ "EventDate") :
    hasField (processDateInformation year dsrc g label) k = hasField label k := by
  cases dsrc with
  | none => rfl
  | some s =>
      simp only [processDateInformation]
      repeat' split
      all_goals
        simp [hasField_setField_ne, updateDateFields_hasField, h1, h2, h3]

/-- processOleMissItem only touches the Score, Time, date and Logo
fields. -/
theorem processOleMissItem_hasField (year : Nat) (pi label : Value)
    (dn ou : String) (k : String)
    (h1 : k ≠ "Date") (h2 : k ≠ "EventEndDate") (h3 : k ≠ "EventDate")
    (h4 : k ≠ "Score") (h5 : k ≠ "Time") (h6 : k ≠ "Logo") :
    hasField (processOleMissItem year pi label dn ou) k = hasField label k := by
  simp only [processOleMissItem]
  repeat' split
  all_goals
    simp [hasField_setField_ne, processDateInformation_hasField,
      h1, h2, h3, h4, h5, h6]

/-- normalizeDateField only touches the Date field. -/
theorem normalizeDateField_hasField (label : Value) (k : String)
    (h1 : k ≠ "Date") : hasField (normalizeDateField label) k = hasField label k := by
  simp only [normalizeDateField]
  repeat' split
  all_goals simp [hasField_setField_ne, h1]

/-- updateDateFields keeps objects objects. -/
theorem isVobj_updateDateFields (year : Nat) (s : String) (label : Value) :
    isVobj (updateDateFields year s label) = isVobj label := by
  simp only [updateDateFields]
  repeat' split
  all_goals simp [isVobj_setField]

/-- processDateInformation keeps objects objects. -/
theorem isVobj_processDateInformation (year : Nat) (dsrc : Option String)
    (g : GameDetails) (label : Value) :
    isVobj (processDateInformation year dsrc g label) = isVobj label := by
  cases dsrc with
  | none => rfl
  | some s =>
      simp only [processDateInformation]
      repeat' split
      all_goals simp [isVobj_setField, isVobj_updateDateFields]

/-- processOleMissItem keeps objects objects. -/
theorem isVobj_processOleMissItem (year : Nat) (pi label : Value)
    (dn ou : String) :
    isVobj (processOleMissItem year pi label dn ou) = isVobj label := by
  simp only [processOleMissItem]
  repeat' split
  all_goals simp [isVobj_setField, isVobj_processDateInformation]

/-- normalizeDateField keeps objects objects. -/
theorem isVobj_normalizeDateField (label : Value) :
    isVobj (normalizeDateField label) = isVobj label := by
  simp only [normalizeDateField]
  repeat' split
  all_goals simp [isVobj_setField]

/-- copyAllowed keeps objects objects. -/
theorem isVobj_copyAllowed :
    ∀ (entries : List (String × Value)) (allowed : List String) (label : Value),
      isVobj (copyAllowed entries allowed label) = isVobj label := by
  intro entries
  induction entries with
  | nil => intro allowed label; rfl
  | cons p rest ih =>
      obtain ⟨k2, v⟩ := p
      intro allowed label
      simp only [copyAllowed]
      rw [ih]
      split
      · rw [isVobj_setField]
      · rfl

/-- Presence of a key after copying the allowed fields: already present on
the label, or present among the entries and allowed. -/
theorem copyAllowed_hasField :
    ∀ (entries : List (String × Value)) (allowed : List String)
      (gs : List (String × Value)) (k : String),
      hasField (copyAllowed entries allowed (.vobj gs)) k =
        ((lookupField gs k).isSome ||
         ((lookupField entries k).isSome && allowed.contains k)) := by
  intro entries
  induction entries with
  | nil =>
      intro allowed gs k
      simp [copyAllowed, hasField, getField, lookupField]
  | cons p rest ih =>
      obtain ⟨k2, v⟩ := p
      intro allowed gs k
      simp only [copyAllowed]
      by_cases hk2 : allowed.contains k2 = true
      · rw [if_pos hk2]
        rw [show setField (.vobj gs) k2 v = Value.vobj (setKey gs k2 v) from rfl]
        rw [ih allowed (setKey gs k2 v) k]
        by_cases hkk : k2 = k
        · subst hkk
          have hk2m : k2 ∈ allowed := List.elem_iff.mp hk2
          simp [lookup_setKey_self, lookupField, hk2m]
        · have hkk2 : k ≠ k2 := fun hh => hkk hh.symm
          rw [lookup_setKey_ne gs k2 k v hkk2]
          simp [lookupField, hkk]
      · rw [if_neg hk2]
        rw [ih allowed gs k]
        have hk2m : ¬ k2 ∈ allowed := fun hm => hk2 (List.elem_iff.mpr hm)
        by_cases hkk : k2 = k
        · subst hkk
          simp [lookupField, hk2m]
        · simp [lookupField, hkk]

/-- Key presence through the object cleaner: a key survives into the
cleaned entry list exactly when it was already accumulated or occurs on
the input object and is not a dropped bookkeeping key. -/
theorem processObjectFields_keys :
    ∀ (fields : List (String × Value)) (fuel now year : Nat)
      (cleaned : List (String × Value)) (ex : Value) (u d : String)
      (gs : List (String × Value)),
      processObjectFields fuel now year fields cleaned ex u d = .ok gs →
      ∀ k : String,
        (lookupField gs k).isSome =
          ((lookupField cleaned k).isSome ||
           ((lookupField fields k).isSome &&
            !(strToLower k = "position" || k = "_STATUS"))) := by
  intro fields
  induction fields with
  | nil =>
      intro fuel now year cleaned ex u d gs h k
      cases fuel with
      | zero => exact Except.noConfusion h
      | succ f =>
          have hce : cleaned = gs := Except.ok.inj h
          subst hce
          simp [lookupField]
  | cons p rest ih =>
      obtain ⟨key, value⟩ := p
      intro fuel now year cleaned ex u d gs h k
      cases fuel with
      | zero => exact Except.noConfusion h
      | succ f =>
          simp only [processObjectFields] at h
          by_cases hskip :
              (decide (strToLower key = "position") || decide (key = "_STATUS")) = true
          · rw [if_pos hskip] at h
            rw [ih f now year cleaned ex u d gs h k]
            by_cases hkk : key = k
            · subst hkk
              simp [lookupField, hskip]
            · simp [lookupField, hkk]
          · rw [if_neg hskip] at h
            have hskf :
                (decide (strToLower key = "position") || decide (key = "_STATUS")) =
                  false := Bool.eq_false_iff.mpr hskip
            cases hv : processFieldValue f now year key value ex u d with
            | error e =>
                rw [hv] at h
                exact Except.noConfusion h
            | ok v =>
                rw [hv, ok_bind] at h
                rw [ih f now year (setKey cleaned key v) ex u d gs h k]
                by_cases hkk : key = k
                · subst hkk
                  simp [lookup_setKey_self, lookupField, hskf]
                · have hkk2 : k ≠ key := fun hh => hkk hh.symm
                  rw [lookup_setKey_ne cleaned key k v hkk2]
                  simp [lookupField, hkk]

/-- Claim C3: a raw object successfully normalized by processArrayItem
always carries the ImageUrl field; when the raw object had no ImageUrl
field the output's ImageUrl is the empty string - a bare string, not an
array. -/
theorem C3_theorem (fuel now year : Nat) (fs : List (String × Value))
    (key : String) (idx : Nat) (docData : Value) (u d : String) (out : Value)
    (h : processArrayItem fuel now year (.vobj fs) key idx docData u d = .ok out) :
    hasField out "ImageUrl" = true ∧
    (lookupField fs "ImageUrl" = none →
      getField out "ImageUrl" = some (.vstr "")) := by
  cases fuel with
  | zero => exact Except.noConfusion h
  | succ f =>
      simp only [processArrayItem] at h
      cases f with
      | zero => exact Except.noConfusion h
      | succ f2 =>
          cases hp : processObjectFields f2 now year fs [] docData u d with
          | error e =>
              rw [show cleanDataFields (f2+1) now year (.vobj fs) docData u d =
                  .error e from by simp [cleanDataFields, hp, error_bind]] at h
              exact Except.noConfusion h
          | ok gs =>
              rw [show cleanDataFields (f2+1) now year (.vobj fs) docData u d =
                  .ok (Value.vobj gs) from by
                    simp [cleanDataFields, hp, ok_bind]] at h
              simp only [ok_bind] at h
              rw [show objEntriesOrThrow (Value.vobj gs) = Except.ok gs from rfl] at h
              simp only [ok_bind] at h
              have hcontT :
                  (baseAllowedFields ++ oleMissExtraFields).contains "ImageUrl" =
                    true := by decide
              have hcontF : baseAllowedFields.contains "ImageUrl" = true := by decide
              have hgsfs : (lookupField gs "ImageUrl").isSome =
                  (lookupField fs "ImageUrl").isSome := by
                rw [processObjectFields_keys fs f2 now year [] docData u d gs hp
                  "ImageUrl"]
                rw [show (!(decide (strToLower "ImageUrl" = "position") ||
                    decide ("ImageUrl" = "_STATUS"))) = true from by decide]
                simp [lookupField]
              split at h
              · split at h
                · rename_i hc
                  have hout := Except.ok.inj h
                  constructor
                  · rw [← hout]
                    exact hc
                  · intro hfs
                    have hgs : (lookupField gs "ImageUrl").isSome = false := by
                      rw [hgsfs, hfs]
                      rfl
                    simp [normalizeDateField_hasField, processOleMissItem_hasField,
                      copyAllowed_hasField, lookupField, hcontT, hcontF, hgs] at hc
                · rename_i hc
                  have hNLf : (lookupField fs "ImageUrl").isSome = false := by
                    by_contra hx
                    have hx2 : (lookupField fs "ImageUrl").isSome = true := by
                      revert hx
                      cases (lookupField fs "ImageUrl").isSome <;> simp
                    apply hc
                    simp [normalizeDateField_hasField, processOleMissItem_hasField,
                      copyAllowed_hasField, lookupField, hcontT, hcontF, hgsfs, hx2]
                    decide
                  simp [hNLf] at h
                  constructor
                  · rw [← h]
                    apply hasField_setField_self
                    simp [isVobj_normalizeDateField, isVobj_processOleMissItem,
                      isVobj_copyAllowed]
                    rfl
                  · intro _
                    rw [← h]
                    apply getField_setField_self
                    simp [isVobj_normalizeDateField, isVobj_processOleMissItem,
                      isVobj_copyAllowed]
                    rfl
              · split at h
                · rename_i hc
                  have hout := Except.ok.inj h
                  constructor
                  · rw [← hout]
                    exact hc
                  · intro hfs
                    have hgs : (lookupField gs "ImageUrl").isSome = false := by
                      rw [hgsfs, hfs]
                      rfl
                    simp [normalizeDateField_hasField, processOleMissItem_hasField,
                      copyAllowed_hasField, lookupField, hcontT, hcontF, hgs] at hc
                · rename_i hc
                  have hNLf : (lookupField fs "ImageUrl").isSome = false := by
                    by_contra hx
                    have hx2 : (lookupField fs "ImageUrl").isSome = true := by
                      revert hx
                      cases (lookupField fs "ImageUrl").isSome <;> simp
                    apply hc
                    simp [normalizeDateField_hasField, processOleMissItem_hasField,
                      copyAllowed_hasField, lookupField, hcontT, hcontF, hgsfs, hx2]
                    decide
                  simp [hNLf] at h
                  constructor
                  · rw [← h]
                    apply hasField_setField_self
                    simp [isVobj_normalizeDateField, isVobj_processOleMissItem,
                      isVobj_copyAllowed]
                    rfl
                  · intro _
                    rw [← h]
                    apply getField_setField_self
                    simp [isVobj_normalizeDateField, isVobj_processOleMissItem,
                      isVobj_copyAllowed]
                    rfl

/-- Claim C3 witness: the theorem applied to a concrete raw object without
an ImageUrl field. -/
theorem C3_witness :
    hasField c3wOut "ImageUrl" = true ∧
    getField c3wOut "ImageUrl" = some (Value.vstr "") := by
  have h := C3_theorem 10 7 2025 [("Location", Value.vstr "X")] "K" 0 .vnull
    "u" "d" c3wOut (by rfl)
  exact ⟨h.1, h.2 (by rfl)⟩

end Webhook

